import Mathlib

set_option maxRecDepth 100000

/-!
Verification of the Zoho-Books invoice-analysis service (`src/api.py`).

The development shallowly embeds the cache-key fingerprint (`get_cache_key`,
backed by SHA-256 exactly as `hashlib.sha256(...).hexdigest()` computes it),
the heuristic analyzer (`analyze_with_transformers`), the retrying provider
dispatcher (`call_llm` under its `tenacity` retry decorator), and the two
endpoint coordinators (`analyze_invoices`, `analyze_invoices_free`).
Machine integers are modelled as `Nat` with explicit reduction modulo `2^32`;
Python floats produced by `float(...)` on digit/dot strings are modelled by
their exact rational value; the external HTTP providers are modelled as
oracles (functions from prompt and call index to an outcome).
-/

/-! ## SHA-256, as computed by `hashlib.sha256(content.encode()).hexdigest()` -/

/-- Truncation to a 32-bit word. -/
def w32 (n : Nat) : Nat := n % 4294967296

/-- Right rotation of a 32-bit word by `n` bits. -/
def rotr (n x : Nat) : Nat := w32 ((x >>> n) ||| (x <<< (32 - n)))

/-- UTF-8 encoding of one character (Python `str.encode()` of one code point). -/
def utf8EncodeChar (c : Char) : List Nat :=
  let n := c.toNat
  if n < 128 then [n]
  else if n < 2048 then [192 + n / 64, 128 + n % 64]
  else if n < 65536 then [224 + n / 4096, 128 + (n / 64) % 64, 128 + n % 64]
  else [240 + n / 262144, 128 + (n / 4096) % 64, 128 + (n / 64) % 64, 128 + n % 64]

/-- UTF-8 byte sequence of a string (Python `content.encode()`). -/
def utf8Bytes (s : String) : List Nat := (s.data.map utf8EncodeChar).flatten

/-- Big-endian 8-byte encoding of a length counter. -/
def be64 (n : Nat) : List Nat :=
  [n / 72057594037927936 % 256, n / 281474976710656 % 256, n / 1099511627776 % 256,
   n / 4294967296 % 256, n / 16777216 % 256, n / 65536 % 256, n / 256 % 256, n % 256]

/-- SHA-256 padding: a `0x80` byte, zeros to 56 mod 64, then the bit length. -/
def padMessage (msg : List Nat) : List Nat :=
  let len := msg.length
  let k := (64 - ((len + 9) % 64)) % 64
  msg ++ [128] ++ List.replicate k 0 ++ be64 (8 * len)

/-- Group bytes into big-endian 32-bit words. -/
def bytesToWords : List Nat → List Nat
  | b0 :: b1 :: b2 :: b3 :: rest =>
      (((b0 * 256 + b1) * 256 + b2) * 256 + b3) :: bytesToWords rest
  | _ => []

/-- Split a word list into chunks of 16, with structural fuel recursion. -/
def toBlocksAux : Nat → List Nat → List (List Nat)
  | 0, _ => []
  | fuel + 1, l => if l.isEmpty then [] else l.take 16 :: toBlocksAux fuel (l.drop 16)

/-- Split a word list into chunks of 16 (one SHA-256 block each). -/
def toBlocks (l : List Nat) : List (List Nat) := toBlocksAux l.length l

/-- SHA-256 big sigma 0. -/
def bsig0 (x : Nat) : Nat := (rotr 2 x) ^^^ (rotr 13 x) ^^^ (rotr 22 x)

/-- SHA-256 big sigma 1. -/
def bsig1 (x : Nat) : Nat := (rotr 6 x) ^^^ (rotr 11 x) ^^^ (rotr 25 x)

/-- SHA-256 small sigma 0. -/
def ssig0 (x : Nat) : Nat := (rotr 7 x) ^^^ (rotr 18 x) ^^^ (x >>> 3)

/-- SHA-256 small sigma 1. -/
def ssig1 (x : Nat) : Nat := (rotr 17 x) ^^^ (rotr 19 x) ^^^ (x >>> 10)

/-- SHA-256 choice function. -/
def chV (x y z : Nat) : Nat := (x &&& y) ^^^ ((x ^^^ 4294967295) &&& z)

/-- SHA-256 majority function. -/
def majV (x y z : Nat) : Nat := (x &&& y) ^^^ (x &&& z) ^^^ (y &&& z)

/-- Extend the 16 block words to the 64-entry message schedule. -/
def extendW (w : Array Nat) : Array Nat :=
  (List.range 48).foldl (fun w i =>
    w.push (w32 (ssig1 (w.getD (i + 14) 0) + w.getD (i + 9) 0 +
                 ssig0 (w.getD (i + 1) 0) + w.getD i 0))) w

/-- The eight SHA-256 working registers. -/
structure Regs where
  a : Nat
  b : Nat
  c : Nat
  d : Nat
  e : Nat
  f : Nat
  g : Nat
  h : Nat
deriving DecidableEq

/-- One SHA-256 compression round for a `(k, w)` constant/schedule pair. -/
def roundStep (s : Regs) (kw : Nat × Nat) : Regs :=
  let t1 := w32 (s.h + bsig1 s.e + chV s.e s.f s.g + kw.1 + kw.2)
  let t2 := w32 (bsig0 s.a + majV s.a s.b s.c)
  ⟨w32 (t1 + t2), s.a, s.b, s.c, w32 (s.d + t1), s.e, s.f, s.g⟩

/-- Register-wise modular addition of two states. -/
def addRegs (x y : Regs) : Regs :=
  ⟨w32 (x.a + y.a), w32 (x.b + y.b), w32 (x.c + y.c), w32 (x.d + y.d),
   w32 (x.e + y.e), w32 (x.f + y.f), w32 (x.g + y.g), w32 (x.h + y.h)⟩

/-- The 64 SHA-256 round constants, written in decimal. -/
def kConsts : List Nat :=
  [1116352408, 1899447441, 3049323471, 3921009573,
   961987163, 1508970993, 2453635748, 2870763221,
   3624381080, 310598401, 607225278, 1426881987,
   1925078388, 2162078206, 2614888103, 3248222580,
   3835390401, 4022224774, 264347078, 604807628,
   770255983, 1249150122, 1555081692, 1996064986,
   2554220882, 2821834349, 2952996808, 3210313671,
   3336571891, 3584528711, 113926993, 338241895,
   666307205, 773529912, 1294757372, 1396182291,
   1695183700, 1986661051, 2177026350, 2456956037,
   2730485921, 2820302411, 3259730800, 3345764771,
   3516065817, 3600352804, 4094571909, 275423344,
   430227734, 506948616, 659060556, 883997877,
   958139571, 1322822218, 1537002063, 1747873779,
   1955562222, 2024104815, 2227730452, 2361852424,
   2428436474, 2756734187, 3204031479, 3329325298]

/-- The SHA-256 initial hash value, written in decimal. -/
def initH : Regs :=
  ⟨1779033703, 3144134277, 1013904242, 2773480762, 1359893119, 2600822924, 528734635, 1541459225⟩

/-- Compress one 16-word block into the running hash state. -/
def compressBlock (hv : Regs) (block : List Nat) : Regs :=
  let w := extendW block.toArray
  addRegs hv ((kConsts.zip w.toList).foldl roundStep hv)

/-- The SHA-256 state after hashing a whole string. -/
def sha256Regs (s : String) : Regs :=
  (toBlocks (bytesToWords (padMessage (utf8Bytes s)))).foldl compressBlock initH

/-- Lowercase hexadecimal digit for a value below 16. -/
def hexChar (n : Nat) : Char := if n < 10 then Char.ofNat (48 + n) else Char.ofNat (87 + n)

/-- Eight-character lowercase hex rendering of one 32-bit word. -/
def wordHex (x : Nat) : List Char :=
  [hexChar (x / 268435456 % 16), hexChar (x / 16777216 % 16), hexChar (x / 1048576 % 16),
   hexChar (x / 65536 % 16), hexChar (x / 4096 % 16), hexChar (x / 256 % 16),
   hexChar (x / 16 % 16), hexChar (x % 16)]

/-- Hex rendering of the final state, register by register. -/
def regsHex (r : Regs) : List Char :=
  wordHex r.a ++ wordHex r.b ++ wordHex r.c ++ wordHex r.d ++
  wordHex r.e ++ wordHex r.f ++ wordHex r.g ++ wordHex r.h

/-- Python `hashlib.sha256(s.encode()).hexdigest()`. -/
def sha256hex (s : String) : String := String.mk (regsHex (sha256Regs s))

/-! ## Cache keys (`get_cache_key`, api.py lines 71-74) -/

/-- Model of `get_cache_key`: hash of the joined content string `query:csv_data`. -/
def get_cache_key (query : String) (csv_data : String) : String :=
  sha256hex (query ++ ":" ++ csv_data)

/-- Length facts: a word renders as exactly 8 hex characters. -/
theorem wordHex_length (x : Nat) : (wordHex x).length = 8 := rfl

/-- The rendered digest always has 64 characters. -/
theorem regsHex_length (r : Regs) : (regsHex r).length = 64 := by
  simp [regsHex, List.length_append, wordHex_length]

/-- A hex digest string always has length 64, like Python's `hexdigest()`. -/
theorem sha256hex_length (s : String) : (sha256hex s).length = 64 :=
  regsHex_length (sha256Regs s)

/-- Every cache fingerprint has length 64. -/
theorem get_cache_key_length (q d : String) : (get_cache_key q d).length = 64 :=
  sha256hex_length (q ++ ":" ++ d)

/-- C1 (counterexample): the pairs `("a:", "b")` and `("a", ":b")` differ in both
components, yet their fingerprints coincide, because `get_cache_key` joins the
query and dataset with a `:` separator and both pairs join to `a::b`. This
refutes the claim that any one-character difference in `q` or `d` changes the
fingerprint. -/
theorem c1_counterexample :
    ("a:", "b") ≠ (("a", ":b") : String × String) ∧
    get_cache_key "a:" "b" = get_cache_key "a" ":b" :=
  ⟨by decide, by unfold get_cache_key; exact congrArg sha256hex (by decide)⟩

/-- C1 (amended): the fingerprint is deterministic (repeated computation on the
same pair gives the same digest), and it depends only on the joined content
string `query ++ ":" ++ csv_data`; in particular any two pairs with the same
joined content — even pairs that differ character-wise across the colon
boundary — receive the same fingerprint. -/
theorem c1_fingerprint_content (q d q' d' : String)
    (h : q ++ ":" ++ d = q' ++ ":" ++ d') :
    get_cache_key q d = get_cache_key q d ∧
    get_cache_key q d = get_cache_key q' d' :=
  ⟨rfl, by unfold get_cache_key; exact congrArg sha256hex h⟩

/-- Witness for C1 at the colon-splice pair. -/
theorem c1_fingerprint_content_witness :
    ("a:" ++ ":" ++ "b" = "a" ++ ":" ++ ":b") ∧
    (get_cache_key "a:" "b" = get_cache_key "a:" "b" ∧
     get_cache_key "a:" "b" = get_cache_key "a" ":b") :=
  ⟨by decide, c1_fingerprint_content "a:" "b" "a" ":b" (by decide)⟩

/-- C9: the key stored by the provider-backed endpoint (`get_cache_key q d`,
api.py line 237) is never equal to the key stored by the heuristic endpoint
(`"free_" ++ get_cache_key q' d'`, api.py line 319), for any inputs: the former
always has 64 characters while the latter always has 69. -/
theorem c9_key_spaces_disjoint (q d q' d' : String) :
    get_cache_key q d ≠ "free_" ++ get_cache_key q' d' := by
  intro h
  have h1 : (get_cache_key q d).length = ("free_" ++ get_cache_key q' d').length :=
    congrArg String.length h
  rw [String.length_append, get_cache_key_length, get_cache_key_length] at h1
  have h2 : ("free_" : String).length = 5 := rfl
  omega

/-- Witness applying C9 at a concrete input. -/
theorem c9_key_spaces_disjoint_witness :
    get_cache_key "a" "b" ≠ "free_" ++ get_cache_key "a" "b" :=
  c9_key_spaces_disjoint "a" "b" "a" "b"

/-! ## Data model (api.py lines 55-69) -/

/-- Model of the pydantic `InvoiceData` record. -/
structure InvoiceData where
  invoice_id : String
  customer : String
  amount : String
  paid_at : String
  status : String
deriving DecidableEq

/-- Model of the pydantic `AnalysisResponse`. -/
structure AnalysisResponse where
  analysis : String
  invoices_analyzed : Nat
  query_hash : String
deriving DecidableEq

/-! ## Python string primitives used by the service -/

/-- Python `str.lower` on one character, modelled on its ASCII behavior. -/
def pyLowerChar (c : Char) : Char :=
  if 'A' ≤ c && c ≤ 'Z' then Char.ofNat (c.toNat + 32) else c

/-- Python `str.lower`, modelled on its ASCII behavior. -/
def pyLower (s : String) : String := String.mk (s.data.map pyLowerChar)

/-- Whether `needle` occurs at the start of `hay`. -/
def listStarts : List Char → List Char → Bool
  | _, [] => true
  | [], _ :: _ => false
  | c :: cs, d :: ds => c == d && listStarts cs ds

/-- Whether `needle` occurs somewhere inside `hay` (Python `needle in hay`). -/
def hasSubstr (hay needle : List Char) : Bool :=
  listStarts hay needle ||
    match hay with
    | [] => false
    | _ :: t => hasSubstr t needle

/-- Python `needle in hay` on strings. -/
def strContains (hay needle : String) : Bool := hasSubstr hay.data needle.data

/-- Python `any(word in ql for word in words)`. -/
def containsAnyWord (ql : String) (words : List String) : Bool :=
  words.any (fun w => strContains ql w)

/-- Split a character list at every occurrence of `c` (Python `str.split`). -/
def splitOnChar (c : Char) : List Char → List (List Char)
  | [] => [[]]
  | x :: xs =>
    match splitOnChar c xs with
    | [] => [[]]
    | l :: ls => if x == c then [] :: l :: ls else (x :: l) :: ls

/-- Default whitespace recognized by Python `str.strip` (ASCII range). -/
def isPySpace (c : Char) : Bool :=
  c == ' ' || c == '\t' || c == '\n' || c == '\r' || c == Char.ofNat 11 || c == Char.ofNat 12

/-- Python `str.strip()`: drop whitespace from both ends. -/
def pyStrip (l : List Char) : List Char :=
  ((l.dropWhile isPySpace).reverse.dropWhile isPySpace).reverse

/-! ## Amount parsing (api.py lines 108, 126-127) -/

/-- Value of a decimal digit string (most significant first). -/
def digitsVal (l : List Char) : Nat :=
  l.foldl (fun acc c => acc * 10 + (c.toNat - 48)) 0

/-- Python `s.replace('.', '')`: delete every dot. -/
def removeDots (l : List Char) : List Char := l.filter (fun c => c != '.')

/-- The amount guard `inv.amount.replace('.','').isdigit()` (api.py line 108);
`isdigit` is modelled on its ASCII behavior. -/
def amountFilter (s : String) : Bool :=
  let r := removeDots s.data
  !r.isEmpty && r.all (fun c => c.isDigit)

/-- Exact nonnegative fraction: the value model of the nonnegative Python
floats the service computes. The denominator is `den1 + 1`, kept positive by
construction; fractions are not normalized, so all operations are structural
arithmetic on `Nat` and reduce in the kernel. -/
structure PyRat where
  num : Nat
  den1 : Nat
deriving DecidableEq

/-- The positive denominator. -/
def PyRat.den (a : PyRat) : Nat := a.den1 + 1

/-- Embed a natural number. -/
def PyRat.ofNat (n : Nat) : PyRat := ⟨n, 0⟩

/-- Exact addition by cross multiplication. -/
def PyRat.add (a b : PyRat) : PyRat :=
  ⟨a.num * b.den + b.num * a.den, a.den1 * b.den1 + a.den1 + b.den1⟩

/-- Multiplication by a natural number. -/
def PyRat.mulNat (a : PyRat) (k : Nat) : PyRat := ⟨a.num * k, a.den1⟩

/-- Division by a positive natural number (all division sites are guarded). -/
def PyRat.divNat (a : PyRat) (k : Nat) : PyRat := ⟨a.num, a.den1 * k + k - 1⟩

/-- Value order: `a ≤ b` by cross multiplication of positive denominators. -/
def PyRat.le (a b : PyRat) : Prop := a.num * b.den ≤ b.num * a.den

instance : DecidableRel PyRat.le := fun a b =>
  inferInstanceAs (Decidable (a.num * b.den ≤ b.num * a.den))

/-- Value equality by cross multiplication. -/
def PyRat.eqv (a b : PyRat) : Prop := a.num * b.den = b.num * a.den

/-- Model of Python `float(s)` restricted to digit-and-dot strings, the only
strings the amount filter can forward: at most one dot parses to the exact
value `intPart.fracPart`; two or more dots (or a bare dot) raise `ValueError`,
modelled as `none`. Wider `float` syntax is unreachable behind the filter. -/
def pyFloat (s : String) : Option PyRat :=
  if s.data.all (fun c => c.isDigit || c == '.') then
    match splitOnChar '.' s.data with
    | [ip] => if ip.isEmpty then none else some (PyRat.ofNat (digitsVal ip))
    | [ip, fp] =>
        if ip.isEmpty && fp.isEmpty then none
        else some ⟨digitsVal ip * 10 ^ fp.length + digitsVal fp, 10 ^ fp.length - 1⟩
    | _ => none
  else none

/-- Model of `sum(float(inv.amount) for inv in invoices if inv.amount.replace('.','').isdigit())`
(api.py line 108). A filter-passing amount that `float` cannot parse raises
`ValueError`; the error carries the offending amount string. -/
def sumAmounts : List InvoiceData → Except String PyRat
  | [] => .ok (PyRat.ofNat 0)
  | inv :: rest =>
    if amountFilter inv.amount then
      match pyFloat inv.amount with
      | some v => (sumAmounts rest).map (fun acc => v.add acc)
      | none => .error inv.amount
    else sumAmounts rest

/-- Per-record contribution to the revenue sum: a record whose amount fails the
filter contributes 0. -/
def contribOf (inv : InvoiceData) : PyRat :=
  if amountFilter inv.amount then (pyFloat inv.amount).getD (PyRat.ofNat 0) else PyRat.ofNat 0

/-! ## Aggregates of `analyze_with_transformers` (api.py lines 107-113) -/

/-- Count of records whose status lowercases to `paid` (api.py line 109). -/
def paidCountOf (invoices : List InvoiceData) : Nat :=
  (invoices.filter (fun inv => pyLower inv.status == "paid")).length

/-- Count of records whose status lowercases to `partially paid` (api.py line 110). -/
def partCountOf (invoices : List InvoiceData) : Nat :=
  (invoices.filter (fun inv => pyLower inv.status == "partially paid")).length

/-- First-occurrence deduplication of a list of names. -/
def firstSeen (l : List String) : List String :=
  l.foldl (fun acc c => if c ∈ acc then acc else acc ++ [c]) []

/-- Model of `customers = list(set(inv.customer for inv in invoices))`
(api.py line 113): only its length is ever used, and the length of the set
equals the length of the first-occurrence deduplication. -/
def uniqueCustomers (invoices : List InvoiceData) : List String :=
  firstSeen (invoices.map (fun inv => inv.customer))

/-! ## Numeric formatting (Python format specs `:,.2f` and `:.1f`) -/

/-- Decimal digit characters of a natural number. -/
def natDigits (n : Nat) : List Char := (toString n).data

/-- Chunk a list into groups of three, with structural fuel recursion. -/
def chunks3Aux : Nat → List Char → List (List Char)
  | 0, _ => []
  | fuel + 1, l => if l.isEmpty then [] else l.take 3 :: chunks3Aux fuel (l.drop 3)

/-- Chunk a list into groups of three. -/
def chunks3 (l : List Char) : List (List Char) := chunks3Aux l.length l

/-- Insert thousands separators into a digit string (Python `,` format flag). -/
def groupDigits (l : List Char) : List Char :=
  List.intercalate [','] (((chunks3 l.reverse).map List.reverse).reverse)

/-- Round the nonnegative fraction `n / d` to the nearest integer, ties to
even: the rounding used when rendering the exact value with a fixed number of
decimals. -/
def roundHalfEven (n d : Nat) : Nat :=
  let f := n / d
  let r := n % d
  if 2 * r < d then f
  else if d < 2 * r then f + 1
  else if f % 2 = 0 then f else f + 1

/-- Python `f"${x:,.2f}"`-style body on a nonnegative value: two decimals,
thousands separators, applied to the exact fraction the float approximates. -/
def fmt2comma (q : PyRat) : String :=
  let cents := roundHalfEven (q.num * 100) q.den
  let fp := cents % 100
  String.mk (groupDigits (natDigits (cents / 100))) ++ "." ++
    (if fp < 10 then "0" ++ toString fp else toString fp)

/-- Python `f"{x:.1f}"` on a nonnegative value: one decimal, no separator. -/
def fmt1 (q : PyRat) : String :=
  let tenths := roundHalfEven (q.num * 10) q.den
  toString (tenths / 10) ++ "." ++ toString (tenths % 10)

/-! ## Query classification and branch templates (api.py lines 116-143) -/

/-- The five analysis categories of the heuristic analyzer. -/
inductive QueryKind
  | revenue
  | customer
  | status
  | count
  | general
deriving DecidableEq

/-- The keyword dispatch of `analyze_with_transformers` (api.py lines 116-141):
lowercase the query, then test the four keyword sets in fixed priority order by
substring matching; the first match wins, otherwise the general overview. -/
def queryKindOf (query : String) : QueryKind :=
  let ql := pyLower query
  if containsAnyWord ql ["total", "revenue", "amount", "sum"] then .revenue
  else if containsAnyWord ql ["customer", "client", "who"] then .customer
  else if containsAnyWord ql ["status", "paid", "payment"] then .status
  else if containsAnyWord ql ["count", "how many", "number"] then .count
  else .general

/-- The revenue-summary template (api.py line 119). -/
def revenueText (total : Nat) (amt : PyRat) (paid part : Nat) : String :=
  "Total Revenue Analysis:\n- Total invoices: " ++ toString total ++
  "\n- Total amount: $" ++ fmt2comma amt ++
  "\n- Paid invoices: " ++ toString paid ++
  "\n- Partially paid: " ++ toString part ++
  "\n- Average per invoice: $" ++ fmt2comma (amt.divNat total)

/-- One line of the top-customer listing (api.py line 132). -/
def customerLine (p : String × PyRat) : String :=
  "  • " ++ p.1 ++ ": $" ++ fmt2comma p.2 ++ "\n"

/-- The customer-ranking template (api.py lines 130-133). -/
def customerText (numCustomers : Nat) (ranked : List (String × PyRat)) : String :=
  "Customer Analysis:\n- Total customers: " ++ toString numCustomers ++
  "\n- Top customers by revenue:\n" ++ String.join (ranked.map customerLine)

/-- The payment-status template (api.py line 136). -/
def statusText (paid part total : Nat) (amt : PyRat) : String :=
  "Payment Status Analysis:\n- Fully paid: " ++ toString paid ++
  " invoices\n- Partially paid: " ++ toString part ++
  " invoices\n- Payment rate: " ++ fmt1 (((PyRat.ofNat (paid + part)).divNat total).mulNat 100) ++
  "%\n- Total collected: $" ++ fmt2comma amt

/-- The invoice-count template (api.py line 139). -/
def countText (total cust paid part : Nat) : String :=
  "Invoice Count Analysis:\n- Total invoices: " ++ toString total ++
  "\n- Unique customers: " ++ toString cust ++
  "\n- Fully paid: " ++ toString paid ++
  "\n- Partially paid: " ++ toString part ++
  "\n- Average per customer: " ++ fmt1 ((PyRat.ofNat total).divNat cust) ++ " invoices"

/-- The general-overview template (api.py line 143). -/
def generalText (total : Nat) (amt : PyRat) (cust paid part : Nat) : String :=
  "Invoice Overview:\n- Total invoices: " ++ toString total ++
  "\n- Total revenue: $" ++ fmt2comma amt ++
  "\n- Customers: " ++ toString cust ++
  "\n- Paid: " ++ toString paid ++ ", Partial: " ++ toString part ++
  "\n- Average invoice: $" ++ fmt2comma (amt.divNat total) ++
  "\n\n📊 This analysis uses free local AI (sentence-transformers)"

/-! ## Top-customer aggregation (api.py lines 121-133) -/

/-- The dict update `top_customers[inv.customer] += float(inv.amount)`
(api.py line 127): add `v` to the value stored under key `k`, in place. -/
def updAmount (k : String) (v : PyRat) (l : List (String × PyRat)) : List (String × PyRat) :=
  l.map (fun p => if p.1 == k then (p.1, p.2.add v) else p)

/-- One iteration of the `for inv in invoices` loop building `top_customers`
(api.py lines 123-127): dict insertion preserves first-occurrence key order;
a filter-passing amount that `float` rejects raises (`.error`). -/
def topStep (acc : List (String × PyRat)) (inv : InvoiceData) : Except String (List (String × PyRat)) :=
  let acc := if acc.any (fun p => p.1 == inv.customer) then acc else acc ++ [(inv.customer, PyRat.ofNat 0)]
  if amountFilter inv.amount then
    match pyFloat inv.amount with
    | some v => .ok (updAmount inv.customer v acc)
    | none => .error inv.amount
  else .ok acc

/-- The `top_customers` per-customer sums, as an insertion-ordered dict. -/
def topCustomersAgg (invoices : List InvoiceData) : Except String (List (String × PyRat)) :=
  invoices.foldlM topStep []

/-- Ordering used by `sorted(top_customers.items(), key=lambda x: x[1], reverse=True)`:
amount descending. Python's sort is stable; it is modelled by the stable
`List.insertionSort`. -/
def amtGe (p q : String × PyRat) : Prop := PyRat.le q.2 p.2

instance : DecidableRel amtGe := fun p q => inferInstanceAs (Decidable (PyRat.le q.2 p.2))

/-! ## The heuristic analyzer (api.py lines 97-143) -/

/-- Failure modes of `analyze_with_transformers`; each corresponds to a Python
exception escaping the function. -/
inductive AnalysisErr
  | unavailable
  | modelLoadFailed
  | valueError (s : String)
  | zeroDivision
deriving DecidableEq

/-- Model of `analyze_with_transformers` (api.py lines 97-143). The two
availability guards, the upfront aggregate computation (which can raise on a
filter-passing unparseable amount), and the five-way keyword dispatch; the
divisions performed in the revenue, status, count, and general branches raise
`ZeroDivisionError` when their denominator is zero. -/
def analyze_with_transformers (transformersAvailable modelLoads : Bool)
    (query : String) (invoices : List InvoiceData) : Except AnalysisErr String :=
  if !transformersAvailable then .error .unavailable
  else if !modelLoads then .error .modelLoadFailed
  else
    let total_invoices := invoices.length
    match sumAmounts invoices with
    | .error s => .error (.valueError s)
    | .ok total_amount =>
      let paid_count := paidCountOf invoices
      let part_count := partCountOf invoices
      let customers := uniqueCustomers invoices
      match queryKindOf query with
      | .revenue =>
          if total_invoices = 0 then .error .zeroDivision
          else .ok (revenueText total_invoices total_amount paid_count part_count)
      | .customer =>
          match topCustomersAgg invoices with
          | .error s => .error (.valueError s)
          | .ok agg => .ok (customerText customers.length ((agg.insertionSort amtGe).take 5))
      | .status =>
          if total_invoices = 0 then .error .zeroDivision
          else .ok (statusText paid_count part_count total_invoices total_amount)
      | .count =>
          if customers.length = 0 then .error .zeroDivision
          else .ok (countText total_invoices customers.length paid_count part_count)
      | .general =>
          if total_invoices = 0 then .error .zeroDivision
          else .ok (generalText total_invoices total_amount customers.length paid_count part_count)

/-! ## The provider dispatcher `call_llm` (api.py lines 145-197) -/

/-- Runtime configuration read by `call_llm`: library availability flags and
whether the corresponding environment credential is set. -/
structure ProviderEnv where
  claudeAvailable : Bool
  openaiAvailable : Bool
  anthropicKey : Bool
  openaiKey : Bool
deriving DecidableEq

/-- The external providers, modelled as oracles: the outcome of the n-th call
to each provider for a given prompt. -/
structure Oracles where
  claude : String → Nat → Except String String
  openai : String → Nat → Except String String

/-- Instrumentation threaded through the dispatcher: how many calls each
provider has received and which backoff sleeps were performed. -/
structure DispatchState where
  claudeCalls : Nat
  openaiCalls : Nat
  sleeps : List Nat
deriving DecidableEq

/-- An exception escaping one body execution of `call_llm` (an `HTTPException`). -/
inductive LLMErr
  | http (detail : String)
deriving DecidableEq

/-- The error surfaced by the retry decorator: after `stop_after_attempt(3)`
tenacity raises `RetryError` wrapping the final attempt's exception. -/
inductive DispatchErr
  | retryError (last : LLMErr)
deriving DecidableEq

/-- The provider enumeration of the configuration error (api.py lines 190-194):
providers whose library imported, regardless of credentials. -/
def availableApis (env : ProviderEnv) : List String :=
  (if env.claudeAvailable then ["Claude (set ANTHROPIC_API_KEY)"] else []) ++
  (if env.openaiAvailable then ["OpenAI (set OPENAI_API_KEY)"] else [])

/-- The OpenAI half of `call_llm` (api.py lines 172-197), entered when the
Claude branch is skipped or its failure is swallowed because an OpenAI key is
present; falls through to the configuration error when unusable. -/
def callOpenaiPart (env : ProviderEnv) (o : Oracles) (prompt : String) (s : DispatchState) :
    Except LLMErr String × DispatchState :=
  if env.openaiAvailable && env.openaiKey then
    match o.openai prompt s.openaiCalls with
    | .ok t => (.ok t, { s with openaiCalls := s.openaiCalls + 1 })
    | .error e =>
        (.error (.http ("OpenAI API error: " ++ e)), { s with openaiCalls := s.openaiCalls + 1 })
  else
    (.error (.http ("No LLM API available. Install and configure: " ++
       String.intercalate ", " (availableApis env))), s)

/-- One un-retried execution of the body of `call_llm` (api.py lines 150-197):
try Claude when its library and key are present; on a Claude exception raise
immediately if no OpenAI key is set, otherwise swallow it and fall through to
the OpenAI branch within the same attempt. -/
def callLLMBody (env : ProviderEnv) (o : Oracles) (prompt : String) (s : DispatchState) :
    Except LLMErr String × DispatchState :=
  if env.claudeAvailable && env.anthropicKey then
    match o.claude prompt s.claudeCalls with
    | .ok t => (.ok t, { s with claudeCalls := s.claudeCalls + 1 })
    | .error e =>
        let s1 := { s with claudeCalls := s.claudeCalls + 1 }
        if !env.openaiKey then (.error (.http ("Claude API error: " ++ e)), s1)
        else callOpenaiPart env o prompt s1
  else callOpenaiPart env o prompt s

/-- Backoff of `wait_exponential(multiplier=1, min=4, max=10)` after a failed
attempt: the exponential value clamped into `[4, 10]`. With these parameters
the clamp yields 4 seconds after each of the first two attempts under either
attempt-indexing convention tenacity has used. -/
def waitExp (attempt : Nat) : Nat := max 4 (min (2 ^ attempt) 10)

/-- The tenacity driver for `call_llm`: up to `left` further attempts starting
at attempt number `attempt`; every exception is retried
(`retry_if_exception_type(Exception)`), a sleep is recorded between a failed
attempt and its retry, and exhaustion raises `RetryError` wrapping the last
exception. Returns the result, the final accounting state, and the number of
attempts performed. -/
def callLLMLoop (env : ProviderEnv) (o : Oracles) (prompt : String) :
    Nat → Nat → DispatchState → Except DispatchErr String × DispatchState × Nat
  | _, 0, s => (.error (.retryError (.http "")), s, 0)
  | attempt, left + 1, s =>
    match callLLMBody env o prompt s with
    | (.ok t, s1) => (.ok t, s1, 1)
    | (.error e, s1) =>
      if left = 0 then (.error (.retryError e), s1, 1)
      else
        let s2 := { s1 with sleeps := s1.sleeps ++ [waitExp attempt] }
        let r := callLLMLoop env o prompt (attempt + 1) left s2
        (r.1, r.2.1, r.2.2 + 1)

/-- Model of `call_llm` with its decorator
`@retry(stop=stop_after_attempt(3), wait=wait_exponential(...), retry=retry_if_exception_type(Exception))`
(api.py lines 145-197). -/
def call_llm (env : ProviderEnv) (o : Oracles) (prompt : String) (s : DispatchState) :
    Except DispatchErr String × DispatchState × Nat :=
  callLLMLoop env o prompt 1 3 s

/-- A fully configured runtime: both libraries imported, both keys set. -/
def envAll : ProviderEnv := ⟨true, true, true, true⟩

/-- Oracles for a primary that always fails and a secondary that succeeds. -/
def oraclePrimaryFails : Oracles :=
  ⟨fun _ _ => .error "boom", fun _ _ => .ok "secondary result"⟩

/-- The dispatcher state at the start of a request. -/
def ds0 : DispatchState := ⟨0, 0, []⟩

/-- A runtime with no provider usable: no library imported, no key set. -/
def envNone : ProviderEnv := ⟨false, false, false, false⟩

/-- Oracles that are never reached. -/
def oracleUnused : Oracles := ⟨fun _ _ => .error "unused", fun _ _ => .error "unused"⟩

/-- C3 (counterexample): with both providers configured, a primary that always
fails, and a secondary that succeeds, the dispatcher returns the secondary's
result after exactly ONE failed primary call — not the claimed three — because
the retry decorator wraps the whole body and the body falls through to the
secondary within the same attempt. -/
theorem c3_counterexample :
    (call_llm envAll oraclePrimaryFails "p" ds0).1 = .ok "secondary result" ∧
    (call_llm envAll oraclePrimaryFails "p" ds0).2.1.claudeCalls = 1 ∧
    ¬(call_llm envAll oraclePrimaryFails "p" ds0).2.1.claudeCalls = 3 :=
  ⟨rfl, rfl, by decide⟩

/-- C3 (amended): when both providers are configured, the primary always fails
and the secondary succeeds, the dispatcher returns the secondary's result with
exactly one failed attempt recorded against the primary before switching, all
within the first retry attempt (the 3-attempt budget applies to the whole
primary-then-secondary sequence, not per provider). -/
theorem c3_fallback_single_primary_attempt (env : ProviderEnv) (o : Oracles)
    (p t : String) (s : DispatchState)
    (h1 : env.claudeAvailable = true) (h2 : env.anthropicKey = true)
    (h3 : env.openaiAvailable = true) (h4 : env.openaiKey = true)
    (hc : ∀ q n, ∃ e, o.claude q n = .error e)
    (ho : o.openai p s.openaiCalls = .ok t) :
    call_llm env o p s =
      (.ok t, { s with claudeCalls := s.claudeCalls + 1, openaiCalls := s.openaiCalls + 1 }, 1) := by
  obtain ⟨e, he⟩ := hc p s.claudeCalls
  simp [call_llm, callLLMLoop, callLLMBody, callOpenaiPart, h1, h2, h3, h4, he, ho]

/-- Witness for C3 at the concrete always-failing primary. -/
theorem c3_fallback_single_primary_attempt_witness :
    call_llm envAll oraclePrimaryFails "p" ds0 =
      (.ok "secondary result",
       { ds0 with claudeCalls := ds0.claudeCalls + 1, openaiCalls := ds0.openaiCalls + 1 }, 1) :=
  c3_fallback_single_primary_attempt envAll oraclePrimaryFails "p" "secondary result" ds0
    rfl rfl rfl rfl (fun _ _ => ⟨"boom", rfl⟩) rfl

/-- C8 (counterexample): with no provider usable at all, the dispatcher does
NOT fail immediately: it performs 3 attempts (not 1) with two backoff sleeps
before surfacing the configuration error wrapped in a retry-exhaustion error,
because `retry_if_exception_type(Exception)` also retries the configuration
`HTTPException`. -/
theorem c8_counterexample :
    (call_llm envNone oracleUnused "p" ds0).2.2 = 3 ∧
    ¬(call_llm envNone oracleUnused "p" ds0).2.2 = 1 ∧
    (call_llm envNone oracleUnused "p" ds0).2.1.sleeps = [4, 4] ∧
    (call_llm envNone oracleUnused "p" ds0).1 =
      .error (.retryError (.http "No LLM API available. Install and configure: ")) :=
  ⟨rfl, by decide, rfl, rfl⟩

/-- C8 (amended): when no provider is usable (for each provider the library is
absent or the credential unset), every attempt raises the configuration error
whose message enumerates the providers whose library is importable; the retry
decorator performs 3 attempts with backoff sleeps between them and then fails
with the retry-exhaustion error wrapping that configuration error, with no
provider ever called. -/
theorem c8_config_error_retried_three_times (env : ProviderEnv) (o : Oracles)
    (p : String) (s : DispatchState)
    (h1 : (env.claudeAvailable && env.anthropicKey) = false)
    (h2 : (env.openaiAvailable && env.openaiKey) = false) :
    call_llm env o p s =
      (.error (.retryError (.http ("No LLM API available. Install and configure: " ++
          String.intercalate ", " (availableApis env)))),
       { s with sleeps := s.sleeps ++ [waitExp 1, waitExp 2] }, 3) := by
  simp [call_llm, callLLMLoop, callLLMBody, callOpenaiPart, h1, h2]

/-- Witness for C8 at the fully unconfigured runtime. -/
theorem c8_config_error_retried_three_times_witness :
    call_llm envNone oracleUnused "p" ds0 =
      (.error (.retryError (.http ("No LLM API available. Install and configure: " ++
          String.intercalate ", " (availableApis envNone)))),
       { ds0 with sleeps := ds0.sleeps ++ [waitExp 1, waitExp 2] }, 3) :=
  c8_config_error_retried_three_times envNone oracleUnused "p" ds0 rfl rfl

/-! ## Inline CSV parsing (api.py lines 213-220 and 298-303) -/

/-- Right-biased dict lookup: later duplicate header names override earlier
ones, as in a Python dict built key-by-key. -/
def dictLookup (pairs : List (String × Option String)) (k : String) : Option (Option String) :=
  (pairs.reverse.find? (fun p => p.1 == k)).map (fun p => p.2)

/-- Model of `InvoiceData(**row)` for one `csv.DictReader` row (api.py line
220): fields are matched to header names positionally, missing trailing fields
read as `None`; a row longer than the header (extras land under the `None`
restkey) or a missing/`None` required field makes the construction raise,
modelled as `none`; extra header columns are ignored by pydantic. -/
def rowToInvoice (header : List String) (fields : List String) : Option InvoiceData :=
  if header.length < fields.length then none
  else
    let pairs := header.zip (fields.map some ++ List.replicate (header.length - fields.length) none)
    match dictLookup pairs "invoice_id", dictLookup pairs "customer", dictLookup pairs "amount",
          dictLookup pairs "paid_at", dictLookup pairs "status" with
    | some (some i), some (some c), some (some a), some (some p), some (some st) =>
        some ⟨i, c, a, p, st⟩
    | _, _, _, _, _ => none

/-- A line split on commas, as strings. Quoting is modelled as literal comma
splitting: the dataset format handles no embedded commas or quotes (spec §6). -/
def splitCommasStr (l : List Char) : List String :=
  (splitOnChar ',' l).map String.mk

/-- Convert the data rows in order; `csv.DictReader` skips blank rows. -/
def rowsToInvoices (header : List String) : List (List Char) → Option (List InvoiceData)
  | [] => some []
  | r :: rs =>
    match rowToInvoice header (splitCommasStr r), rowsToInvoices header rs with
    | some i, some is => some (i :: is)
    | _, _ => none

/-- Parsing the stripped, line-split inline CSV: first line is the header, the
remaining non-blank lines are records (api.py lines 219-220). `none` models a
pydantic/`TypeError` exception escaping the endpoint unhandled. -/
def parseInvoices (lines : List (List Char)) : Option (List InvoiceData) :=
  match lines with
  | [] => some []
  | h :: rows => rowsToInvoices (splitCommasStr h) (rows.filter (fun r => !r.isEmpty))

/-! ## The endpoint coordinators (api.py lines 203-280 and 288-341) -/

/-- HTTP-level failures of the two analysis endpoints. -/
inductive HttpErr
  | badRequest (detail : String)
  | notFound (detail : String)
  | internal (detail : String)
  | unhandled
deriving DecidableEq

/-- The persisted-dataset branch (api.py lines 222-234): the excluded file
collaborator supplies the parsed `fileRecords` and raw `fileContent`; an empty
record list is the 404 condition. -/
def loadFromFile (fileRecords : List InvoiceData) (fileContent : String) :
    Except HttpErr (List InvoiceData × String) :=
  if fileRecords.isEmpty then
    .error (.notFound "No invoice data found. Run the scraper first or provide CSV data.")
  else .ok (fileRecords, fileContent)

/-- The dataset-acquisition step shared by both endpoints (api.py lines
212-234 and 297-316): a truthy inline `csv_data` is stripped, split on
newlines, guarded to at least two lines, and parsed; a falsy one (absent or
empty) falls back to the persisted dataset. -/
def loadRecords (fileRecords : List InvoiceData) (fileContent : String)
    (csv_data : Option String) : Except HttpErr (List InvoiceData × String) :=
  match csv_data with
  | none => loadFromFile fileRecords fileContent
  | some s =>
    if s == "" then loadFromFile fileRecords fileContent
    else
      let lines := splitOnChar '\n' (pyStrip s.data)
      if lines.length < 2 then .error (.badRequest "Invalid CSV data format")
      else
        match parseInvoices lines with
        | some invs => .ok (invs, s)
        | none => .error .unhandled

/-- One line of the prompt's invoice summary (api.py line 248). -/
def summaryLine (p : Nat × InvoiceData) : String :=
  toString (p.1 + 1) ++ ". Invoice " ++ p.2.invoice_id ++ ": " ++ p.2.customer ++
  ", $" ++ p.2.amount ++ ", " ++ p.2.status ++ ", Paid: " ++ p.2.paid_at ++ "\n"

/-- The prompt's dataset summary (api.py lines 244-251): a header, the first
10 records, and a remainder count when more were present. -/
def invoiceSummary (invoices : List InvoiceData) : String :=
  "Invoice Data Summary:\nTotal Invoices: " ++ toString invoices.length ++ "\n\n" ++
  String.join ((invoices.take 10).enum.map summaryLine) ++
  (if 10 < invoices.length then
    "... and " ++ toString (invoices.length - 10) ++ " more invoices\n"
  else "")

/-- The triple-quoted f-string prompt (api.py lines 254-261). -/
def buildPrompt (invoices : List InvoiceData) (query : String) : String :=
  "\n    " ++ invoiceSummary invoices ++ "\n    \n    User Query: " ++ query ++
  "\n    \n    Please analyze the invoice data and provide a concise response to the user's query. \n    Focus on key insights, patterns, and specific numbers where relevant.\n    "

/-- Python `str(e)` for an exception escaping `call_llm`: the `RetryError`
rendering embeds a runtime memory address and is abstracted to its class name. -/
def dispatchErrStr : DispatchErr → String
  | .retryError _ => "RetryError"

/-- Python `str(e)` for exceptions escaping `analyze_with_transformers`; the
`ValueError` text quotes the offending string (quotes elided here). -/
def analysisErrStr : AnalysisErr → String
  | .unavailable => "500: sentence-transformers not available"
  | .modelLoadFailed => "500: Failed to load transformer model"
  | .valueError s => "could not convert string to float: " ++ s
  | .zeroDivision => "float division by zero"

/-- The in-memory idempotency cache (api.py line 43): a string-keyed dict,
insertion-ordered. -/
abbrev Cache := List (String × AnalysisResponse)

/-- Dict membership test and read, `cache_key in cache` / `cache[cache_key]`. -/
def cacheGet (c : Cache) (k : String) : Option AnalysisResponse :=
  (c.find? (fun p => p.1 == k)).map (fun p => p.2)

/-- Dict store `cache[cache_key] = response`: replace an existing binding in
place, otherwise append, preserving insertion order as a Python dict does. -/
def cachePut (c : Cache) (k : String) (r : AnalysisResponse) : Cache :=
  match c with
  | [] => [(k, r)]
  | p :: t => if p.1 == k then (k, r) :: t else p :: cachePut t k r

/-- Python slice `s[:8]` (api.py lines 271 and 333). -/
def takeStr (n : Nat) (s : String) : String := String.mk (s.data.take n)

/-- Model of the `/analyze` endpoint `analyze_invoices` (api.py lines 203-280)
on one request: the HTTP outcome, the cache afterwards, and the dispatcher
accounting (provider call counts and sleeps) afterwards. -/
def analyze_invoices (env : ProviderEnv) (o : Oracles)
    (fileRecords : List InvoiceData) (fileContent : String)
    (cache : Cache) (ds : DispatchState) (query : String) (csv_data : Option String) :
    Except HttpErr AnalysisResponse × Cache × DispatchState :=
  match loadRecords fileRecords fileContent csv_data with
  | .error e => (.error e, cache, ds)
  | .ok (invoices, csv_content) =>
    let cache_key := get_cache_key query csv_content
    match cacheGet cache cache_key with
    | some r => (.ok r, cache, ds)
    | none =>
      match call_llm env o (buildPrompt invoices query) ds with
      | (.ok analysis_result, ds1, _) =>
        let response : AnalysisResponse := ⟨analysis_result, invoices.length, takeStr 8 cache_key⟩
        (.ok response, cachePut cache cache_key response, ds1)
      | (.error e, ds1, _) =>
        (.error (.internal ("Analysis failed: " ++ dispatchErrStr e)), cache, ds1)

/-- Model of the `/analyze-free` endpoint `analyze_invoices_free` (api.py
lines 288-341) on one request: the HTTP outcome, the cache afterwards, and the
number of heuristic computations performed so far. -/
def analyze_invoices_free (transformersAvailable modelLoads : Bool)
    (fileRecords : List InvoiceData) (fileContent : String)
    (cache : Cache) (heurRuns : Nat) (query : String) (csv_data : Option String) :
    Except HttpErr AnalysisResponse × Cache × Nat :=
  match loadRecords fileRecords fileContent csv_data with
  | .error e => (.error e, cache, heurRuns)
  | .ok (invoices, csv_content) =>
    let cache_key := "free_" ++ get_cache_key query csv_content
    match cacheGet cache cache_key with
    | some r => (.ok r, cache, heurRuns)
    | none =>
      match analyze_with_transformers transformersAvailable modelLoads query invoices with
      | .ok analysis_result =>
        let response : AnalysisResponse := ⟨analysis_result, invoices.length, takeStr 8 cache_key⟩
        (.ok response, cachePut cache cache_key response, heurRuns + 1)
      | .error e =>
        (.error (.internal ("Free analysis failed: " ++ analysisErrStr e)), cache, heurRuns + 1)

deriving instance DecidableEq for Except

/-- Storing under a key makes that key readable with the stored value. -/
theorem cacheGet_cachePut_self (c : Cache) (k : String) (r : AnalysisResponse) :
    cacheGet (cachePut c k r) k = some r := by
  induction c with
  | nil => simp [cachePut, cacheGet]
  | cons p t ih =>
    by_cases hp : p.1 == k
    · simp [cachePut, hp, cacheGet]
    · simp only [cachePut, hp, if_neg, Bool.false_eq_true, not_false_eq_true]
      simp only [cacheGet, List.find?] at ih ⊢
      simp [hp, ih]

/-- C2: issuing the same `(query, csv_data)` twice sequentially through the
same endpoint, when the first call succeeds with response `r`, makes the
second call return the byte-identical stored response with the cache and the
instrumentation unchanged: no new provider call on `/analyze` (the dispatcher
state `ds1` is returned untouched) and no new heuristic computation on
`/analyze-free` (the run counter `hr1` is returned untouched). -/
theorem c2_cache_idempotence (env : ProviderEnv) (o : Oracles)
    (fr : List InvoiceData) (fc : String) (ta ml : Bool)
    (q : String) (d : Option String) :
    (∀ cache ds r cache1 ds1,
       analyze_invoices env o fr fc cache ds q d = (.ok r, cache1, ds1) →
       analyze_invoices env o fr fc cache1 ds1 q d = (.ok r, cache1, ds1)) ∧
    (∀ cache hr r cache1 hr1,
       analyze_invoices_free ta ml fr fc cache hr q d = (.ok r, cache1, hr1) →
       analyze_invoices_free ta ml fr fc cache1 hr1 q d = (.ok r, cache1, hr1)) := by
  constructor
  · intro cache ds r cache1 ds1 h
    unfold analyze_invoices at h ⊢
    split at h
    · simp at h
    · next invs content hl =>
      dsimp only at h ⊢
      split at h
      · next r0 hg =>
        simp only [Prod.mk.injEq, Except.ok.injEq] at h
        obtain ⟨h1, h2, h3⟩ := h
        subst h1 h2 h3
        rw [hg]
      · next hg =>
        split at h
        · next t ds2 att hcall =>
          simp only [Prod.mk.injEq, Except.ok.injEq] at h
          obtain ⟨h1, h2, h3⟩ := h
          subst h2 h3
          rw [← h1]
          rw [cacheGet_cachePut_self]
        · next e ds2 att hcall =>
          simp at h
  · intro cache hr r cache1 hr1 h
    unfold analyze_invoices_free at h ⊢
    split at h
    · simp at h
    · next invs content hl =>
      dsimp only at h ⊢
      split at h
      · next r0 hg =>
        simp only [Prod.mk.injEq, Except.ok.injEq] at h
        obtain ⟨h1, h2, h3⟩ := h
        subst h1 h2 h3
        rw [hg]
      · next hg =>
        split at h
        · next t hcall =>
          simp only [Prod.mk.injEq, Except.ok.injEq] at h
          obtain ⟨h1, h2, h3⟩ := h
          subst h2 h3
          rw [← h1]
          rw [cacheGet_cachePut_self]
        · next e hcall =>
          simp at h

/-- Oracles whose primary succeeds immediately. -/
def oracleOk : Oracles := ⟨fun _ _ => .ok "llm says hi", fun _ _ => .error "unused"⟩

/-- A one-record inline dataset used by concrete scenarios. -/
def csvW : String := "invoice_id,customer,amount,paid_at,status\nINV-1,A,100,2024-01-01,Paid"

/-- The response the provider endpoint computes for `("hello", csvW)`. -/
def rW : AnalysisResponse :=
  ⟨"llm says hi", 1, takeStr 8 (get_cache_key "hello" csvW)⟩

/-- The cache after that first provider-backed call. -/
def cacheW : Cache := [(get_cache_key "hello" csvW, rW)]

/-- The dispatcher accounting after that call: one Claude call, no sleeps. -/
def dsW : DispatchState := ⟨1, 0, []⟩

/-- The response the heuristic endpoint computes for `("hello", csvW)`. -/
def rW2 : AnalysisResponse :=
  ⟨generalText 1 (PyRat.ofNat 100) 1 1 0, 1, takeStr 8 ("free_" ++ get_cache_key "hello" csvW)⟩

/-- The cache after that first heuristic call. -/
def cacheW2 : Cache := [("free_" ++ get_cache_key "hello" csvW, rW2)]

/-- Witness for C2: on both endpoints a concrete first call succeeds and the
repeated identical call returns the identical response with unchanged state. -/
theorem c2_cache_idempotence_witness :
    (analyze_invoices envAll oracleOk [] "" [] ds0 "hello" (some csvW) = (.ok rW, cacheW, dsW)) ∧
    analyze_invoices envAll oracleOk [] "" cacheW dsW "hello" (some csvW) = (.ok rW, cacheW, dsW) ∧
    (analyze_invoices_free true true [] "" [] 0 "hello" (some csvW) = (.ok rW2, cacheW2, 1)) ∧
    analyze_invoices_free true true [] "" cacheW2 1 "hello" (some csvW) = (.ok rW2, cacheW2, 1) :=
  have hfirst : analyze_invoices envAll oracleOk [] "" [] ds0 "hello" (some csvW) =
      (.ok rW, cacheW, dsW) := by decide
  have hfree : analyze_invoices_free true true [] "" [] 0 "hello" (some csvW) =
      (.ok rW2, cacheW2, 1) := by decide
  ⟨hfirst,
   (c2_cache_idempotence envAll oracleOk [] "" true true "hello" (some csvW)).1
     [] ds0 rW cacheW dsW hfirst,
   hfree,
   (c2_cache_idempotence envAll oracleOk [] "" true true "hello" (some csvW)).2
     [] 0 rW2 cacheW2 1 hfree⟩

/-- C10: a failing request stores nothing: on either endpoint, whenever the
outcome is an error (validation, not-found, provider failure, heuristic
failure), the cache returned is exactly the cache passed in; and on the
heuristic endpoint, when the failed request did run the analysis step
(`hr1 = hr + 1`), an identical follow-up request runs it again from scratch
(the run counter increments again). -/
theorem c10_failure_leaves_cache_unchanged (env : ProviderEnv) (o : Oracles)
    (fr : List InvoiceData) (fc : String) (ta ml : Bool) (q : String) (d : Option String) :
    (∀ cache ds e cache1 ds1,
       analyze_invoices env o fr fc cache ds q d = (.error e, cache1, ds1) → cache1 = cache) ∧
    (∀ cache hr e cache1 hr1,
       analyze_invoices_free ta ml fr fc cache hr q d = (.error e, cache1, hr1) →
       cache1 = cache ∧
       (hr1 = hr + 1 →
         (analyze_invoices_free ta ml fr fc cache1 hr1 q d).2.2 = hr1 + 1)) := by
  constructor
  · intro cache ds e cache1 ds1 h
    unfold analyze_invoices at h
    split at h
    · simp only [Prod.mk.injEq] at h
      exact h.2.1.symm
    · next invs content hl =>
      dsimp only at h
      split at h
      · simp at h
      · next hg =>
        split at h
        · simp at h
        · next e2 ds2 att hcall =>
          simp only [Prod.mk.injEq] at h
          exact h.2.1.symm
  · intro cache hr e cache1 hr1 h
    unfold analyze_invoices_free at h
    split at h
    · next e0 hl =>
      simp only [Prod.mk.injEq] at h
      obtain ⟨he, hc, hh⟩ := h
      refine ⟨hc.symm, fun hcontra => ?_⟩
      omega
    · next invs content hl =>
      dsimp only at h
      split at h
      · simp at h
      · next hg =>
        split at h
        · simp at h
        · next e2 hcall =>
          simp only [Prod.mk.injEq] at h
          obtain ⟨he, hc, hh⟩ := h
          subst hc
          refine ⟨rfl, fun _ => ?_⟩
          unfold analyze_invoices_free
          rw [hl]
          dsimp only
          rw [hg, hcall]

/-- An inline dataset whose amount string passes the dot filter but fails
`float` conversion. -/
def csvBad : String := "invoice_id,customer,amount,paid_at,status\nINV-1,A,1.2.3,2024-01-01,Paid"

/-- The heuristic endpoint's error for that dataset. -/
def errBad : HttpErr := .internal ("Free analysis failed: " ++ analysisErrStr (.valueError "1.2.3"))

/-- The provider endpoint's error when no provider is usable. -/
def errProv : HttpErr :=
  .internal ("Analysis failed: " ++
    dispatchErrStr (.retryError (.http "No LLM API available. Install and configure: ")))

/-- The dispatcher accounting after the exhausted unconfigured call. -/
def dsBad : DispatchState := ⟨0, 0, [4, 4]⟩

/-- Witness for C10: concrete failing requests on both endpoints leave the
empty cache empty, and the identical follow-up on the heuristic endpoint
recomputes. -/
theorem c10_failure_leaves_cache_unchanged_witness :
    (analyze_invoices envNone oracleUnused [] "" [] ds0 "hello" (some csvW) =
      (.error errProv, [], dsBad)) ∧
    ([] : Cache) = ([] : Cache) ∧
    (analyze_invoices_free true true [] "" [] 0 "hello" (some csvBad) = (.error errBad, [], 1)) ∧
    (analyze_invoices_free true true [] "" [] 1 "hello" (some csvBad)).2.2 = 1 + 1 :=
  have h1 : analyze_invoices envNone oracleUnused [] "" [] ds0 "hello" (some csvW) =
      (.error errProv, [], dsBad) := by decide
  have h2 : analyze_invoices_free true true [] "" [] 0 "hello" (some csvBad) =
      (.error errBad, [], 1) := by decide
  ⟨h1,
   (c10_failure_leaves_cache_unchanged envNone oracleUnused [] "" true true "hello"
      (some csvW)).1 [] ds0 errProv [] dsBad h1,
   h2,
   ((c10_failure_leaves_cache_unchanged envNone oracleUnused [] "" true true "hello"
      (some csvBad)).2 [] 0 errBad [] 1 h2).2 rfl⟩

/-- Head of a successful `dropWhile` fails the predicate. -/
theorem dropWhile_head_not (p : Char → Bool) (m : List Char) (c : Char) (cs : List Char)
    (h : m.dropWhile p = c :: cs) : p c = false := by
  induction m with
  | nil => simp at h
  | cons x xs ih =>
    rw [List.dropWhile_cons] at h
    by_cases hx : p x
    · rw [if_pos hx] at h
      exact ih h
    · rw [if_neg hx] at h
      cases h
      exact Bool.of_not_eq_true hx

/-- The last character of a stripped string is not Python whitespace. -/
theorem pyStrip_getLast_not_space (l : List Char) (c : Char)
    (h : (pyStrip l).getLast? = some c) : isPySpace c = false := by
  unfold pyStrip at h
  rw [List.getLast?_reverse] at h
  cases hd : ((l.dropWhile isPySpace).reverse.dropWhile isPySpace) with
  | nil => rw [hd] at h; simp at h
  | cons x xs =>
    rw [hd] at h
    simp only [List.head?_cons, Option.some.injEq] at h
    subst h
    exact dropWhile_head_not isPySpace _ x xs hd

/-- Splitting always yields at least one chunk. -/
theorem splitOnChar_ne_nil (c : Char) (s : List Char) : splitOnChar c s ≠ [] := by
  cases s with
  | nil => simp [splitOnChar]
  | cons x xs =>
    unfold splitOnChar
    cases hr : splitOnChar c xs with
    | nil => simp
    | cons l ls =>
      by_cases hx : x == c
      · simp [hx]
      · simp [hx]

/-- An empty last chunk means the input was empty or ended with the separator. -/
theorem splitOnChar_getLast_empty (c : Char) (s : List Char)
    (h : (splitOnChar c s).getLast? = some []) :
    s = [] ∨ s.getLast? = some c := by
  induction s with
  | nil => exact Or.inl rfl
  | cons x xs ih =>
    refine Or.inr ?_
    unfold splitOnChar at h
    cases hr : splitOnChar c xs with
    | nil => exact absurd hr (splitOnChar_ne_nil c xs)
    | cons l ls =>
      rw [hr] at h
      dsimp only at h
      by_cases hx : x == c
      · rw [if_pos hx] at h
        rw [List.getLast?_cons_cons, ← hr] at h
        rcases ih h with hnil | hlast
        · subst hnil
          simp only [List.getLast?_singleton, Option.some.injEq]
          exact (beq_iff_eq.mp hx).symm ▸ rfl
        · cases xs with
          | nil => simp at hlast
          | cons y ys =>
            rw [List.getLast?_cons_cons]
            exact hlast
      · rw [if_neg hx] at h
        cases ls with
        | nil => simp at h
        | cons y ys =>
          rw [List.getLast?_cons_cons] at h
          have h2 : (splitOnChar c xs).getLast? = some [] := by
            rw [hr, List.getLast?_cons_cons]
            exact h
          rcases ih h2 with hnil | hlast
          · subst hnil
            simp [splitOnChar] at hr
          · cases xs with
            | nil => simp at hlast
            | cons z zs =>
              rw [List.getLast?_cons_cons]
              exact hlast

/-- Successful row conversion preserves the number of rows. -/
theorem rowsToInvoices_length (header : List String) (rs : List (List Char))
    (invs : List InvoiceData) (h : rowsToInvoices header rs = some invs) :
    invs.length = rs.length := by
  induction rs generalizing invs with
  | nil =>
    simp only [rowsToInvoices, Option.some.injEq] at h
    subst h
    rfl
  | cons r rest ih =>
    unfold rowsToInvoices at h
    cases h1 : rowToInvoice header (splitCommasStr r) with
    | none => rw [h1] at h; simp at h
    | some i =>
      rw [h1] at h
      cases h2 : rowsToInvoices header rest with
      | none => rw [h2] at h; simp at h
      | some is =>
        rw [h2] at h
        simp only [Option.some.injEq] at h
        subst h
        simp [ih is h2]

/-- Dataset acquisition never succeeds with an empty record set: the persisted
branch rejects an empty set with 404, and inline CSV that passes the two-line
guard always contains a non-blank data line (the stripped text cannot end in a
newline), which parses into at least one record. -/
theorem loadRecords_ok_ne_nil (fr : List InvoiceData) (fc : String) (d : Option String)
    (invs : List InvoiceData) (content : String)
    (h : loadRecords fr fc d = .ok (invs, content)) : invs ≠ [] := by
  have hfile : ∀ (hf : loadFromFile fr fc = .ok (invs, content)), invs ≠ [] := by
    intro hf
    unfold loadFromFile at hf
    by_cases he : fr.isEmpty
    · rw [if_pos he] at hf; simp at hf
    · rw [if_neg he] at hf
      simp only [Except.ok.injEq, Prod.mk.injEq] at hf
      obtain ⟨h1, h2⟩ := hf
      subst h1
      exact fun hn => he (by simp [hn])
  unfold loadRecords at h
  cases d with
  | none => dsimp only at h; exact hfile h
  | some s =>
    dsimp only at h
    by_cases hs : s == ""
    · rw [if_pos hs] at h; exact hfile h
    · rw [if_neg hs] at h
      by_cases hlen : (splitOnChar '\n' (pyStrip s.data)).length < 2
      · rw [if_pos hlen] at h; simp at h
      · rw [if_neg hlen] at h
        cases hp : parseInvoices (splitOnChar '\n' (pyStrip s.data)) with
        | none => rw [hp] at h; simp at h
        | some invs2 =>
          rw [hp] at h
          simp only [Except.ok.injEq, Prod.mk.injEq] at h
          obtain ⟨h1, h2⟩ := h
          subst h1
          -- lines has length ≥ 2; get its shape
          cases hl : splitOnChar '\n' (pyStrip s.data) with
          | nil => exact absurd hl (splitOnChar_ne_nil _ _)
          | cons a rest =>
            cases rest with
            | nil => rw [hl] at hlen; simp at hlen
            | cons b rest2 =>
              rw [hl] at hp
              unfold parseInvoices at hp
              -- the last line is nonempty
              have hlast : ∃ t, (b :: rest2).getLast? = some t ∧ t ≠ [] := by
                have hg : (a :: b :: rest2).getLast? = (b :: rest2).getLast? :=
                  List.getLast?_cons_cons
                cases ht : (b :: rest2).getLast? with
                | none => simp at ht
                | some t =>
                  refine ⟨t, rfl, fun htn => ?_⟩
                  subst htn
                  have h3 : (splitOnChar '\n' (pyStrip s.data)).getLast? = some [] := by
                    rw [hl, hg, ht]
                  rcases splitOnChar_getLast_empty '\n' (pyStrip s.data) h3 with hnil | hec
                  · rw [hnil] at hl
                    simp [splitOnChar] at hl
                  · have h4 := pyStrip_getLast_not_space (s.data) '\n' hec
                    simp [isPySpace] at h4
              obtain ⟨t, ht, htn⟩ := hlast
              have htm : t ∈ (b :: rest2).filter (fun r => !r.isEmpty) := by
                refine List.mem_filter.mpr ⟨List.mem_of_getLast?_eq_some ht, ?_⟩
                simp [List.isEmpty_iff, htn]
              have hfn : (b :: rest2).filter (fun r => !r.isEmpty) ≠ [] :=
                List.ne_nil_of_mem htm
              have hlength := rowsToInvoices_length _ _ _ hp
              intro hcontra
              subst hcontra
              simp only [List.length_nil] at hlength
              exact hfn (List.length_eq_zero.mp hlength.symm)

/-- The first-seen fold never shrinks a nonempty accumulator to empty. -/
theorem firstSeen_aux_ne_nil (l : List String) (acc : List String) (h : acc ≠ []) :
    l.foldl (fun acc c => if c ∈ acc then acc else acc ++ [c]) acc ≠ [] := by
  induction l generalizing acc with
  | nil => exact h
  | cons x xs ih =>
    simp only [List.foldl_cons]
    by_cases hx : x ∈ acc
    · rw [if_pos hx]; exact ih acc h
    · rw [if_neg hx]
      exact ih (acc ++ [x]) (by simp)

/-- A nonempty record set has at least one distinct customer. -/
theorem uniqueCustomers_ne_nil (invs : List InvoiceData) (h : invs ≠ []) :
    uniqueCustomers invs ≠ [] := by
  cases invs with
  | nil => exact absurd rfl h
  | cons i rest =>
    unfold uniqueCustomers firstSeen
    simp only [List.map_cons, List.foldl_cons, List.not_mem_nil, if_neg, List.nil_append]
    exact firstSeen_aux_ne_nil _ [i.customer] (by simp)

/-- On a nonempty record set the heuristic analyzer never raises
`ZeroDivisionError`: every divisor (`total_invoices`, `len(customers)`) is
positive. -/
theorem analyze_no_zero_division (ta ml : Bool) (q : String) (invs : List InvoiceData)
    (h : invs ≠ []) :
    analyze_with_transformers ta ml q invs ≠ .error .zeroDivision := by
  intro heq
  unfold analyze_with_transformers at heq
  split at heq
  · simp at heq
  · split at heq
    · simp at heq
    · split at heq
      · simp at heq
      · next amt hsum =>
        have hlen : invs.length ≠ 0 := fun hc => h (List.length_eq_zero.mp hc)
        have hcust : (uniqueCustomers invs).length ≠ 0 := fun hc =>
          uniqueCustomers_ne_nil invs h (List.length_eq_zero.mp hc)
        split at heq
        · rw [if_neg hlen] at heq; simp at heq
        · split at heq
          · simp at heq
          · simp at heq
        · rw [if_neg hlen] at heq; simp at heq
        · rw [if_neg hcust] at heq; simp at heq
        · rw [if_neg hlen] at heq; simp at heq

/-- Dataset acquisition only fails with 400, 404, or an unhandled parse error. -/
theorem loadRecords_error_shape (fr : List InvoiceData) (fc : String) (d : Option String)
    (e : HttpErr) (h : loadRecords fr fc d = .error e) :
    (∃ m, e = .badRequest m) ∨ (∃ m, e = .notFound m) ∨ e = .unhandled := by
  have hfile : ∀ (hf : loadFromFile fr fc = .error e), (∃ m, e = .badRequest m) ∨ (∃ m, e = .notFound m) ∨ e = .unhandled := by
    intro hf
    unfold loadFromFile at hf
    split at hf
    · simp only [Except.error.injEq] at hf
      exact Or.inr (Or.inl ⟨_, hf.symm⟩)
    · simp at hf
  unfold loadRecords at h
  cases d with
  | none => dsimp only at h; exact hfile h
  | some s =>
    dsimp only at h
    split at h
    · exact hfile h
    · split at h
      · simp only [Except.error.injEq] at h
        exact Or.inl ⟨_, h.symm⟩
      · split at h
        · simp at h
        · simp only [Except.error.injEq] at h
          exact Or.inr (Or.inr h.symm)

/-- C4: an empty parsed record set never reaches aggregate division. Dataset
acquisition never succeeds with an empty record set; when the persisted set is
empty and no inline dataset is supplied (or it is falsy), both endpoints fail
with the 404 not-found error; the analyzer cannot raise `ZeroDivisionError` on
a nonempty set; and consequently the heuristic endpoint can never surface the
wrapped division-by-zero failure. -/
theorem c4_zero_division_safety (env : ProviderEnv) (o : Oracles) (ta ml : Bool)
    (fr : List InvoiceData) (fc : String) (q : String) (d : Option String) :
    (∀ invs content, loadRecords fr fc d = .ok (invs, content) → invs ≠ []) ∧
    (fr = [] → (d = none ∨ d = some "") →
      ∀ cache ds hr,
        analyze_invoices env o fr fc cache ds q d =
          (.error (.notFound "No invoice data found. Run the scraper first or provide CSV data."), cache, ds) ∧
        analyze_invoices_free ta ml fr fc cache hr q d =
          (.error (.notFound "No invoice data found. Run the scraper first or provide CSV data."), cache, hr)) ∧
    (∀ invs, invs ≠ [] → analyze_with_transformers ta ml q invs ≠ .error .zeroDivision) ∧
    (∀ cache hr, (analyze_invoices_free ta ml fr fc cache hr q d).1 ≠
      .error (.internal ("Free analysis failed: " ++ analysisErrStr .zeroDivision))) := by
  refine ⟨fun invs content h => loadRecords_ok_ne_nil fr fc d invs content h, ?_, ?_, ?_⟩
  · intro hfr hd cache ds hr
    subst hfr
    rcases hd with hd | hd <;> subst hd <;>
      constructor <;>
      simp [analyze_invoices, analyze_invoices_free, loadRecords, loadFromFile]
  · exact fun invs hne => analyze_no_zero_division ta ml q invs hne
  · intro cache hr heq
    unfold analyze_invoices_free at heq
    split at heq
    · next e hl =>
      dsimp only at heq
      simp only [Except.error.injEq] at heq
      rcases loadRecords_error_shape fr fc d e hl with ⟨m, hm⟩ | ⟨m, hm⟩ | hm <;>
        subst hm <;> simp at heq
    · next invs content hl =>
      dsimp only at heq
      split at heq
      · simp at heq
      · next hg =>
        split at heq
        · simp at heq
        · next e2 hcall =>
          simp only [Except.error.injEq, HttpErr.internal.injEq] at heq
          have hne := loadRecords_ok_ne_nil fr fc d invs content hl
          cases e2 with
          | unavailable => simp [analysisErrStr] at heq
          | modelLoadFailed => simp [analysisErrStr] at heq
          | zeroDivision => exact analyze_no_zero_division ta ml q invs hne hcall
          | valueError s =>
            simp only [analysisErrStr] at heq
            have hlen := congrArg String.length heq
            rw [String.length_append, String.length_append, String.length_append] at hlen
            have e1 : ("Free analysis failed: " : String).length = 22 := rfl
            have e2l : ("could not convert string to float: " : String).length = 35 := rfl
            have e3 : ("float division by zero" : String).length = 22 := rfl
            omega

/-- The record parsed from `csvW`. -/
def invW : InvoiceData := ⟨"INV-1", "A", "100", "2024-01-01", "Paid"⟩

/-- Witness for C4: the concrete inline dataset parses to a nonempty record
set; with an empty persisted set and no inline data both endpoints 404; the
analyzer does not raise division by zero on the parsed record. -/
theorem c4_zero_division_safety_witness :
    (loadRecords [] "" (some csvW) = .ok ([invW], csvW)) ∧
    ([invW] : List InvoiceData) ≠ [] ∧
    analyze_invoices envAll oracleOk [] "" [] ds0 "hello" none =
      (.error (.notFound "No invoice data found. Run the scraper first or provide CSV data."), [], ds0) ∧
    analyze_invoices_free true true [] "" [] 0 "hello" none =
      (.error (.notFound "No invoice data found. Run the scraper first or provide CSV data."), [], 0) ∧
    analyze_with_transformers true true "hello" [invW] ≠ .error .zeroDivision ∧
    (analyze_invoices_free true true [] "" [] 0 "hello" (some csvW)).1 ≠
      .error (.internal ("Free analysis failed: " ++ analysisErrStr .zeroDivision)) :=
  have hld : loadRecords [] "" (some csvW) = .ok ([invW], csvW) := by decide
  ⟨hld,
   (c4_zero_division_safety envAll oracleOk true true [] "" "hello" (some csvW)).1
     [invW] csvW hld,
   ((c4_zero_division_safety envAll oracleOk true true [] "" "hello" none).2.1
     rfl (Or.inl rfl) [] ds0 0).1,
   ((c4_zero_division_safety envAll oracleOk true true [] "" "hello" none).2.1
     rfl (Or.inl rfl) [] ds0 0).2,
   (c4_zero_division_safety envAll oracleOk true true [] "" "hello" (some csvW)).2.2.1
     [invW] (by decide),
   (c4_zero_division_safety envAll oracleOk true true [] "" "hello" (some csvW)).2.2.2
     [] 0⟩

/-- Adding the zero fraction is the identity. -/
theorem PyRat.add_zero_right (a : PyRat) : a.add (PyRat.ofNat 0) = a := by
  cases a with
  | mk n d =>
    simp [PyRat.add, PyRat.ofNat, PyRat.den]

/-- Value stored under a key in the insertion-ordered dict. -/
def aggVal (agg : List (String × PyRat)) (c : String) : Option PyRat :=
  (agg.find? (fun p => p.1 == c)).map (fun p => p.2)

/-- Reading a dict whose head key matches. -/
theorem aggVal_cons_pos (p : String × PyRat) (t : List (String × PyRat)) (c : String)
    (hp : (p.1 == c) = true) : aggVal (p :: t) c = some p.2 := by
  simp [aggVal, List.find?_cons, hp]

/-- Reading a dict whose head key differs. -/
theorem aggVal_cons_neg (p : String × PyRat) (t : List (String × PyRat)) (c : String)
    (hp : (p.1 == c) = false) : aggVal (p :: t) c = aggVal t c := by
  simp [aggVal, List.find?_cons, hp]

/-- Reading a concatenated dict prefers the left part. -/
theorem aggVal_append (l1 l2 : List (String × PyRat)) (c : String) :
    aggVal (l1 ++ l2) c = (aggVal l1 c).or (aggVal l2 c) := by
  induction l1 with
  | nil => simp [aggVal]
  | cons p t ih =>
    cases hp : p.1 == c with
    | true =>
      rw [List.cons_append, aggVal_cons_pos p (t ++ l2) c hp, aggVal_cons_pos p t c hp]
      rfl
    | false =>
      rw [List.cons_append, aggVal_cons_neg p (t ++ l2) c hp, aggVal_cons_neg p t c hp]
      exact ih

/-- Reading after an in-place addition under key `k`. -/
theorem aggVal_update (l : List (String × PyRat)) (k : String) (v : PyRat) (c : String) :
    aggVal (updAmount k v l) c =
      (aggVal l c).map (fun w => if c == k then w.add v else w) := by
  induction l with
  | nil => simp [aggVal, updAmount]
  | cons p t ih =>
    unfold updAmount at ih ⊢
    rw [List.map_cons]
    have hkey : (if p.1 == k then (p.1, p.2.add v) else p).1 = p.1 := by
      by_cases hpk : p.1 == k
      · rw [if_pos hpk]
      · rw [if_neg hpk]
    cases hpc : p.1 == c with
    | true =>
      have h1 : ((if p.1 == k then (p.1, p.2.add v) else p).1 == c) = true := by
        rw [hkey]; exact hpc
      rw [aggVal_cons_pos (if p.1 == k then (p.1, p.2.add v) else p)
            (t.map (fun p => if p.1 == k then (p.1, p.2.add v) else p)) c h1,
          aggVal_cons_pos p t c hpc]
      have hc : p.1 = c := beq_iff_eq.mp hpc
      cases hpk : p.1 == k with
      | true =>
        have hck : (c == k) = true := beq_iff_eq.mpr (hc ▸ beq_iff_eq.mp hpk)
        simp [hpk, hck]
      | false =>
        have hck : (c == k) = false := by
          cases hq : c == k with
          | false => rfl
          | true =>
            rw [hc] at hpk
            rw [hpk] at hq
            exact absurd hq (by simp)
        simp [hpk, hck]
    | false =>
      have h1 : ((if p.1 == k then (p.1, p.2.add v) else p).1 == c) = false := by
        rw [hkey]; exact hpc
      rw [aggVal_cons_neg (if p.1 == k then (p.1, p.2.add v) else p)
            (t.map (fun p => if p.1 == k then (p.1, p.2.add v) else p)) c h1,
          aggVal_cons_neg p t c hpc]
      exact ih

/-- Left fold of per-record contributions, the per-customer reference sum. -/
def sumContribs (v0 : PyRat) (fs : List InvoiceData) : PyRat :=
  fs.foldl (fun a inv => a.add (contribOf inv)) v0

/-- A key reported present by `any` has a stored value. -/
theorem aggVal_isSome_of_any (acc : List (String × PyRat)) (k : String)
    (h : acc.any (fun p => p.1 == k) = true) : (aggVal acc k).isSome = true := by
  induction acc with
  | nil => simp at h
  | cons p t ih =>
    rw [List.any_cons] at h
    cases hp : p.1 == k with
    | true => rw [aggVal_cons_pos p t k hp]; rfl
    | false =>
      rw [hp] at h
      simp only [Bool.false_or] at h
      rw [aggVal_cons_neg p t k hp]
      exact ih h

/-- A key not reported by `any` has no stored value. -/
theorem aggVal_none_of_not_any (acc : List (String × PyRat)) (k : String)
    (h : acc.any (fun p => p.1 == k) = false) : aggVal acc k = none := by
  induction acc with
  | nil => rfl
  | cons p t ih =>
    rw [List.any_cons] at h
    cases hp : p.1 == k with
    | true => rw [hp] at h; simp at h
    | false =>
      rw [hp] at h
      simp only [Bool.false_or] at h
      rw [aggVal_cons_neg p t k hp]
      exact ih h

/-- The dict built by the `top_customers` loop holds, for each customer, the
left-fold of per-record contributions of that customer (filter-failing amounts
contributing zero), regardless of the starting accumulator. -/
theorem topAgg_aggVal (l : List InvoiceData) (acc agg : List (String × PyRat))
    (h : List.foldlM topStep acc l = .ok agg) (c : String) :
    aggVal agg c =
      match aggVal acc c with
      | some v0 => some (sumContribs v0 (l.filter (fun i => i.customer == c)))
      | none =>
          if (l.filter (fun i => i.customer == c)).isEmpty then none
          else some (sumContribs (PyRat.ofNat 0) (l.filter (fun i => i.customer == c))) := by
  induction l generalizing acc with
  | nil =>
    simp only [List.foldlM_nil] at h
    obtain rfl : acc = agg := by simpa [pure, Except.pure] using h
    cases hv : aggVal acc c <;> simp [hv, sumContribs]
  | cons r rest ih =>
    rw [List.foldlM_cons] at h
    cases hstep : topStep acc r with
    | error e => rw [hstep] at h; simp [Bind.bind, Except.bind] at h
    | ok acc1 =>
      rw [hstep] at h
      simp only [Bind.bind, Except.bind] at h
      have ihres := ih acc1 h
      unfold topStep at hstep
      cases hf : amountFilter r.amount with
      | true =>
        rw [hf] at hstep
        cases hpf : pyFloat r.amount with
        | none => rw [hpf] at hstep; simp at hstep
        | some v =>
          rw [hpf] at hstep
          cases hany : acc.any (fun p => p.1 == r.customer) with
          | true =>
            rw [hany] at hstep
            simp only [eq_self_iff_true, if_true, Bool.false_eq_true, if_false,
              Except.ok.injEq] at hstep
            subst hstep
            rw [aggVal_update acc r.customer v c] at ihres
            cases hcus : r.customer == c with
            | true =>
              have hc : r.customer = c := beq_iff_eq.mp hcus
              subst hc
              obtain ⟨v0, hv0⟩ := Option.isSome_iff_exists.mp
                (aggVal_isSome_of_any acc r.customer hany)
              rw [hv0] at ihres ⊢
              simp only [Option.map_some, beq_self_eq_true, if_pos] at ihres
              rw [List.filter_cons, if_pos (by simp)]
              simp only [sumContribs, List.foldl_cons]
              have hcontrib : contribOf r = v := by
                unfold contribOf
                rw [if_pos hf, hpf]
                rfl
              rw [hcontrib]
              exact ihres
            | false =>
              have hck : (c == r.customer) = false := by
                cases hq : c == r.customer with
                | false => rfl
                | true =>
                  rw [(beq_iff_eq.mp hq)] at hcus
                  simp at hcus
              rw [hck] at ihres
              simp only [Bool.false_eq_true, if_false, Option.map_id'] at ihres
              rw [List.filter_cons, if_neg (by simp [hcus])]
              exact ihres
          | false =>
            rw [hany] at hstep
            simp only [eq_self_iff_true, if_true, Bool.false_eq_true, if_false,
              Except.ok.injEq] at hstep
            subst hstep
            rw [aggVal_update _ r.customer v c, aggVal_append acc _ c] at ihres
            have hnone := aggVal_none_of_not_any acc r.customer hany
            cases hcus : r.customer == c with
            | true =>
              have hc : r.customer = c := beq_iff_eq.mp hcus
              subst hc
              rw [hnone] at ihres ⊢
              rw [aggVal_cons_pos (r.customer, PyRat.ofNat 0) [] r.customer (by simp)] at ihres
              simp only [Option.none_or, Option.map_some, beq_self_eq_true, if_pos] at ihres
              rw [List.filter_cons, if_pos (by simp)]
              have hcontrib : contribOf r = v := by
                unfold contribOf
                rw [if_pos hf, hpf]
                rfl
              simp only [List.isEmpty_cons, if_false, Bool.false_eq_true]
              rw [ihres]
              simp [sumContribs, hcontrib]
            | false =>
              rw [aggVal_cons_neg (r.customer, PyRat.ofNat 0) [] c hcus] at ihres
              rw [show aggVal ([] : List (String × PyRat)) c = none from rfl,
                Option.or_none] at ihres
              have hck : (c == r.customer) = false := by
                cases hq : c == r.customer with
                | false => rfl
                | true =>
                  rw [(beq_iff_eq.mp hq)] at hcus
                  simp at hcus
              rw [hck] at ihres
              simp only [Bool.false_eq_true, if_false, Option.map_id'] at ihres
              rw [List.filter_cons, if_neg (by simp [hcus])]
              exact ihres
      | false =>
        rw [hf] at hstep
        cases hany : acc.any (fun p => p.1 == r.customer) with
        | true =>
          rw [hany] at hstep
          simp only [eq_self_iff_true, if_true, Bool.false_eq_true, if_false,
            Except.ok.injEq] at hstep
          subst hstep
          cases hcus : r.customer == c with
          | true =>
            have hc : r.customer = c := beq_iff_eq.mp hcus
            subst hc
            obtain ⟨v0, hv0⟩ := Option.isSome_iff_exists.mp
              (aggVal_isSome_of_any acc r.customer hany)
            rw [hv0] at ihres ⊢
            rw [List.filter_cons, if_pos (by simp)]
            simp only [sumContribs, List.foldl_cons]
            have hcontrib : contribOf r = PyRat.ofNat 0 := by
              unfold contribOf
              rw [if_neg (by simp [hf])]
            rw [hcontrib, PyRat.add_zero_right]
            exact ihres
          | false =>
            rw [List.filter_cons, if_neg (by simp [hcus])]
            exact ihres
        | false =>
          rw [hany] at hstep
          simp only [eq_self_iff_true, if_true, Bool.false_eq_true, if_false,
            Except.ok.injEq] at hstep
          subst hstep
          rw [aggVal_append acc _ c] at ihres
          have hnone := aggVal_none_of_not_any acc r.customer hany
          cases hcus : r.customer == c with
          | true =>
            have hc : r.customer = c := beq_iff_eq.mp hcus
            subst hc
            rw [hnone] at ihres ⊢
            rw [aggVal_cons_pos (r.customer, PyRat.ofNat 0) [] r.customer (by simp)] at ihres
            simp only [Option.none_or] at ihres
            rw [List.filter_cons, if_pos (by simp)]
            have hcontrib : contribOf r = PyRat.ofNat 0 := by
              unfold contribOf
              rw [if_neg (by simp [hf])]
            simp only [List.isEmpty_cons, if_false, Bool.false_eq_true]
            rw [ihres]
            simp [sumContribs, hcontrib, PyRat.add_zero_right]
          | false =>
            rw [aggVal_cons_neg (r.customer, PyRat.ofNat 0) [] c hcus] at ihres
            rw [show aggVal ([] : List (String × PyRat)) c = none from rfl,
              Option.or_none] at ihres
            rw [List.filter_cons, if_neg (by simp [hcus])]
            exact ihres

/-- In-place addition does not change the key sequence. -/
theorem updAmount_keys (k : String) (v : PyRat) (l : List (String × PyRat)) :
    (updAmount k v l).map Prod.fst = l.map Prod.fst := by
  unfold updAmount
  rw [List.map_map]
  apply List.map_congr_left
  intro p _
  by_cases hp : p.1 = k
  · simp [hp]
  · simp [hp]

/-- The `any` membership probe agrees with key membership. -/
theorem mem_keys_iff_any (acc : List (String × PyRat)) (k : String) :
    (acc.any (fun p => p.1 == k) = true) ↔ k ∈ acc.map Prod.fst := by
  simp [List.any_eq_true, List.mem_map, beq_iff_eq]

/-- The dict keys are the customers in first-occurrence order, continuing from
the keys of the accumulator. -/
theorem topAgg_keys (l : List InvoiceData) (acc agg : List (String × PyRat))
    (h : List.foldlM topStep acc l = .ok agg) :
    agg.map Prod.fst = (l.map (fun i => i.customer)).foldl
      (fun ks c => if c ∈ ks then ks else ks ++ [c]) (acc.map Prod.fst) := by
  induction l generalizing acc with
  | nil =>
    simp only [List.foldlM_nil] at h
    obtain rfl : acc = agg := by simpa [pure, Except.pure] using h
    rfl
  | cons r rest ih =>
    rw [List.foldlM_cons] at h
    cases hstep : topStep acc r with
    | error e => rw [hstep] at h; simp [Bind.bind, Except.bind] at h
    | ok acc1 =>
      rw [hstep] at h
      simp only [Bind.bind, Except.bind] at h
      have ihres := ih acc1 h
      unfold topStep at hstep
      rw [List.map_cons, List.foldl_cons]
      cases hany : acc.any (fun p => p.1 == r.customer) with
      | true =>
        rw [hany] at hstep
        have hmem : r.customer ∈ acc.map Prod.fst := (mem_keys_iff_any acc r.customer).mp hany
        rw [if_pos hmem]
        cases hf : amountFilter r.amount with
        | true =>
          rw [hf] at hstep
          cases hpf : pyFloat r.amount with
          | none => rw [hpf] at hstep; simp at hstep
          | some v =>
            rw [hpf] at hstep
            simp only [eq_self_iff_true, if_true, Except.ok.injEq] at hstep
            subst hstep
            rw [ihres, updAmount_keys]
        | false =>
          rw [hf] at hstep
          simp only [eq_self_iff_true, if_true, Bool.false_eq_true, if_false,
            Except.ok.injEq] at hstep
          subst hstep
          exact ihres
      | false =>
        rw [hany] at hstep
        have hmem : r.customer ∉ acc.map Prod.fst := by
          intro hc
          rw [← mem_keys_iff_any] at hc
          rw [hany] at hc
          exact absurd hc (by simp)
        rw [if_neg hmem]
        cases hf : amountFilter r.amount with
        | true =>
          rw [hf] at hstep
          cases hpf : pyFloat r.amount with
          | none => rw [hpf] at hstep; simp at hstep
          | some v =>
            rw [hpf] at hstep
            simp only [eq_self_iff_true, if_true, Bool.false_eq_true, if_false,
              Except.ok.injEq] at hstep
            subst hstep
            rw [ihres, updAmount_keys, List.map_append]
            rfl
        | false =>
          rw [hf] at hstep
          simp only [eq_self_iff_true, if_true, Bool.false_eq_true, if_false,
            Except.ok.injEq] at hstep
          subst hstep
          rw [ihres, List.map_append]
          rfl

/-- The first-seen fold preserves distinctness. -/
theorem firstSeen_fold_nodup (l : List String) (acc : List String) (h : acc.Nodup) :
    (l.foldl (fun ks c => if c ∈ ks then ks else ks ++ [c]) acc).Nodup := by
  induction l generalizing acc with
  | nil => exact h
  | cons x xs ih =>
    rw [List.foldl_cons]
    by_cases hx : x ∈ acc
    · rw [if_pos hx]; exact ih acc h
    · rw [if_neg hx]
      refine ih (acc ++ [x]) ?_
      rw [← List.concat_eq_append]
      exact h.concat hx

/-- First-occurrence deduplication yields distinct names. -/
theorem firstSeen_nodup (l : List String) : (firstSeen l).Nodup :=
  firstSeen_fold_nodup l [] List.nodup_nil

/-- Two distinct members of a list occur in one of the two orders. -/
theorem pair_sublist_or {α : Type} (a b : α) (l : List α)
    (ha : a ∈ l) (hb : b ∈ l) (hab : a ≠ b) :
    [a, b].Sublist l ∨ [b, a].Sublist l := by
  induction l with
  | nil => simp at ha
  | cons x t ih =>
    by_cases hax : a = x
    · subst hax
      have hbt : b ∈ t := by
        rcases List.mem_cons.mp hb with h1 | h1
        · exact absurd h1.symm hab
        · exact h1
      exact Or.inl (List.Sublist.cons₂ a (List.singleton_sublist.mpr hbt))
    · by_cases hbx : b = x
      · subst hbx
        have hat : a ∈ t := by
          rcases List.mem_cons.mp ha with h1 | h1
          · exact absurd h1 hax
          · exact h1
        exact Or.inr (List.Sublist.cons₂ b (List.singleton_sublist.mpr hat))
      · have hat : a ∈ t := by
          rcases List.mem_cons.mp ha with h1 | h1
          · exact absurd h1 hax
          · exact h1
        have hbt : b ∈ t := by
          rcases List.mem_cons.mp hb with h1 | h1
          · exact absurd h1 hbx
          · exact h1
        rcases ih hat hbt with h1 | h1
        · exact Or.inl (h1.cons x)
        · exact Or.inr (h1.cons x)

/-- In a duplicate-free list two distinct elements cannot occur in both orders. -/
theorem not_pair_sublist_both {α : Type} [DecidableEq α] (a b : α) (l : List α)
    (hn : l.Nodup) (hab : a ≠ b)
    (h1 : [a, b].Sublist l) (h2 : [b, a].Sublist l) : False := by
  have c1 : l.count a ≥ 1 := by
    have := h1.count_le a
    simp [List.count_cons] at this
    omega
  induction l with
  | nil => simp at h1
  | cons x t ih =>
    rw [List.nodup_cons] at hn
    cases h1 with
    | cons _ h1' =>
      cases h2 with
      | cons _ h2' =>
        exact ih hn.2 h1' h2' (by
          have := h1'.count_le a
          simp [List.count_cons] at this
          omega)
      | cons₂ _ h2' =>
        -- x = b, and [a] <+ t from h1'... h1' : [a,b] <+ t so b ∈ t
        have hbt : b ∈ t := (h1'.subset) (by simp)
        exact hn.1 hbt
    | cons₂ _ h1' =>
      -- x = a; h2 : [b, a] <+ a :: t
      cases h2 with
      | cons _ h2' =>
        -- [b, a] <+ t → a ∈ t, but a = x ∉ t
        have hat : a ∈ t := (h2'.subset) (by simp)
        exact hn.1 hat
      | cons₂ _ h2' =>
        -- x = a and x = b simultaneously: contradiction
        exact hab rfl

instance : IsTotal (String × PyRat) amtGe :=
  ⟨fun a b => by
    unfold amtGe PyRat.le
    rcases Nat.le_total (b.2.num * a.2.den) (a.2.num * b.2.den) with h | h
    · exact Or.inl h
    · exact Or.inr h⟩

instance : IsTrans (String × PyRat) amtGe :=
  ⟨fun a b c hab hbc => by
    unfold amtGe PyRat.le at hab hbc ⊢
    have h1 : c.2.num * b.2.den * a.2.den ≤ b.2.num * c.2.den * a.2.den :=
      Nat.mul_le_mul_right a.2.den hbc
    have h2 : b.2.num * a.2.den * c.2.den ≤ a.2.num * b.2.den * c.2.den :=
      Nat.mul_le_mul_right c.2.den hab
    have key : c.2.num * a.2.den * b.2.den ≤ a.2.num * c.2.den * b.2.den := by
      calc c.2.num * a.2.den * b.2.den
          = c.2.num * b.2.den * a.2.den := by ring
        _ ≤ b.2.num * c.2.den * a.2.den := h1
        _ = b.2.num * a.2.den * c.2.den := by ring
        _ ≤ a.2.num * b.2.den * c.2.den := h2
        _ = a.2.num * c.2.den * b.2.den := by ring
    have hd : 0 < b.2.den := Nat.succ_pos b.2.den1
    exact Nat.le_of_mul_le_mul_right key hd⟩

/-- Equal values compare both ways under the descending-amount order. -/
theorem eqv_amtGe {p q : String × PyRat} (h : PyRat.eqv p.2 q.2) : amtGe q p := by
  unfold amtGe PyRat.le
  unfold PyRat.eqv at h
  exact Nat.le_of_eq h

/-- C7: whenever the `top_customers` aggregation succeeds, the ranking the
customer branch reports via `sorted(...)[:5]` has at most 5 entries, is
ordered by summed amount descending, breaks amount ties by dict order (which
is first-occurrence order by the key theorem: a tied pair appears in the
ranking exactly in its dict order), lists customers in first-occurrence
order in the dict, and stores for every customer the sum of the contributions
of its records, filter-failing amounts contributing zero. -/
theorem c7_top_customer_ranking (l : List InvoiceData) (agg : List (String × PyRat))
    (h : topCustomersAgg l = .ok agg) :
    ((agg.insertionSort amtGe).take 5).length ≤ 5 ∧
    List.Pairwise amtGe ((agg.insertionSort amtGe).take 5) ∧
    agg.map Prod.fst = firstSeen (l.map (fun i => i.customer)) ∧
    (∀ c v, aggVal agg c = some v →
      v = sumContribs (PyRat.ofNat 0) (l.filter (fun i => i.customer == c))) ∧
    (∀ p q, [p, q].Sublist ((agg.insertionSort amtGe).take 5) → PyRat.eqv p.2 q.2 →
      [p, q].Sublist agg) := by
  have hkeys : agg.map Prod.fst = firstSeen (l.map (fun i => i.customer)) := by
    have := topAgg_keys l [] agg h
    simpa [firstSeen] using this
  have hnodup : agg.Nodup := by
    have hk : (agg.map Prod.fst).Nodup := by
      rw [hkeys]; exact firstSeen_nodup _
    exact hk.of_map
  have hperm := List.perm_insertionSort amtGe agg
  have hsortnodup : (agg.insertionSort amtGe).Nodup := (hperm.nodup_iff).mpr hnodup
  refine ⟨List.length_take_le 5 _, ?_, hkeys, ?_, ?_⟩
  · exact (List.sorted_insertionSort amtGe agg).sublist (List.take_sublist 5 _)
  · intro c v hv
    have := topAgg_aggVal l [] agg h c
    rw [show aggVal [] c = none from rfl] at this
    simp only at this
    by_cases he : (l.filter (fun i => i.customer == c)).isEmpty
    · rw [if_pos he, hv] at this; simp at this
    · rw [if_neg he, hv] at this
      simpa using this
  · intro p q hsub heqv
    have hsub' : [p, q].Sublist (agg.insertionSort amtGe) :=
      hsub.trans (List.take_sublist 5 _)
    by_cases hpq : p = q
    · subst hpq
      have hdup := hsortnodup.sublist hsub'
      simp at hdup
    · have hpmem : p ∈ agg := (List.mem_insertionSort amtGe).mp (hsub'.subset (by simp))
      have hqmem : q ∈ agg := (List.mem_insertionSort amtGe).mp (hsub'.subset (by simp))
      rcases pair_sublist_or p q agg hpmem hqmem hpq with hor | hor
      · exact hor
      · exfalso
        have hpair : [q, p].Pairwise amtGe := List.pairwise_pair.mpr (eqv_amtGe heqv)
        have hqp : [q, p].Sublist (agg.insertionSort amtGe) :=
          List.sublist_insertionSort hpair hor
        exact not_pair_sublist_both p q (agg.insertionSort amtGe) hsortnodup hpq hsub' hqp

/-- A two-customer record list for the ranking witness. -/
def lW : List InvoiceData :=
  [⟨"1", "A", "100", "d", "Paid"⟩, ⟨"2", "B", "50", "d", "Paid"⟩]

/-- The aggregation the loop computes for `lW`. -/
def aggW : List (String × PyRat) := [("A", ⟨100, 0⟩), ("B", ⟨50, 0⟩)]

/-- Witness for C7 at a concrete record list. -/
theorem c7_top_customer_ranking_witness :
    (topCustomersAgg lW = .ok aggW) ∧
    (((aggW.insertionSort amtGe).take 5).length ≤ 5 ∧
     List.Pairwise amtGe ((aggW.insertionSort amtGe).take 5) ∧
     aggW.map Prod.fst = firstSeen (lW.map (fun i => i.customer)) ∧
     (∀ c v, aggVal aggW c = some v →
       v = sumContribs (PyRat.ofNat 0) (lW.filter (fun i => i.customer == c))) ∧
     (∀ p q, [p, q].Sublist ((aggW.insertionSort amtGe).take 5) → PyRat.eqv p.2 q.2 →
       [p, q].Sublist aggW)) :=
  ⟨by decide, c7_top_customer_ranking lW aggW (by decide)⟩

/-- Adding to the zero fraction is the identity. -/
theorem PyRat.zero_add_left (a : PyRat) : (PyRat.ofNat 0).add a = a := by
  cases a with
  | mk n d =>
    simp [PyRat.add, PyRat.ofNat, PyRat.den]

/-- When every filter-passing amount converts, the generator sum is the fold
of per-record contributions. -/
theorem sumAmounts_eq_foldr (l : List InvoiceData)
    (h : ∀ inv ∈ l, amountFilter inv.amount = true → (pyFloat inv.amount).isSome = true) :
    sumAmounts l = .ok (l.foldr (fun inv acc => (contribOf inv).add acc) (PyRat.ofNat 0)) := by
  induction l with
  | nil => rfl
  | cons inv rest ih =>
    have hrest := ih (fun i hi hf => h i (List.mem_cons_of_mem inv hi) hf)
    rw [List.foldr_cons]
    unfold sumAmounts
    cases hf : amountFilter inv.amount with
    | true =>
      obtain ⟨v, hv⟩ := Option.isSome_iff_exists.mp (h inv (List.mem_cons_self inv rest) hf)
      rw [hv]
      simp only [if_true]
      rw [hrest]
      have hcontrib : contribOf inv = v := by
        unfold contribOf
        rw [if_pos hf, hv]
        rfl
      simp [Except.map, hcontrib]
    | false =>
      simp only [Bool.false_eq_true, if_false]
      rw [hrest]
      have hcontrib : contribOf inv = PyRat.ofNat 0 := by
        unfold contribOf
        rw [if_neg (by simp [hf])]
      rw [hcontrib, PyRat.zero_add_left]

/-- The customer aggregation cannot raise when every filter-passing amount
converts. -/
theorem topAgg_ok_of_parseable (l : List InvoiceData)
    (h : ∀ inv ∈ l, amountFilter inv.amount = true → (pyFloat inv.amount).isSome = true) :
    ∃ agg, topCustomersAgg l = .ok agg := by
  unfold topCustomersAgg
  suffices hs : ∀ acc, ∃ agg, List.foldlM topStep acc l = .ok agg from hs []
  induction l with
  | nil => intro acc; exact ⟨acc, rfl⟩
  | cons r rest ih =>
    intro acc
    have hrest := ih (fun i hi hf => h i (List.mem_cons_of_mem r hi) hf)
    rw [List.foldlM_cons]
    have hstep : ∃ acc1, topStep acc r = .ok acc1 := by
      unfold topStep
      cases hf : amountFilter r.amount with
      | true =>
        obtain ⟨v, hv⟩ := Option.isSome_iff_exists.mp (h r (List.mem_cons_self r rest) hf)
        rw [hv]
        exact ⟨_, rfl⟩
      | false => exact ⟨_, rfl⟩
    obtain ⟨acc1, hacc1⟩ := hstep
    obtain ⟨agg, hagg⟩ := hrest acc1
    exact ⟨agg, by rw [hacc1]; simpa [Bind.bind, Except.bind] using hagg⟩

/-- C5 (amended): when every filter-passing amount string is convertible, the
upfront revenue sum is exactly the fold of per-record contributions — records
whose amount fails the dots-removed-digits filter contribute zero while still
being counted (the totals use the full list length) — and the whole analysis
succeeds for every query on a nonempty record set. -/
theorem c5_malformed_amounts (l : List InvoiceData)
    (h : ∀ inv ∈ l, amountFilter inv.amount = true → (pyFloat inv.amount).isSome = true) :
    sumAmounts l = .ok (l.foldr (fun inv acc => (contribOf inv).add acc) (PyRat.ofNat 0)) ∧
    (∀ q, l ≠ [] → (analyze_with_transformers true true q l).isOk = true) := by
  refine ⟨sumAmounts_eq_foldr l h, ?_⟩
  intro q hne
  unfold analyze_with_transformers
  simp only [Bool.not_true, Bool.false_eq_true, if_false]
  rw [sumAmounts_eq_foldr l h]
  have hcust : uniqueCustomers l ≠ [] := uniqueCustomers_ne_nil l hne
  cases queryKindOf q with
  | revenue => simp [hne, Except.isOk, Except.toBool]
  | customer =>
    obtain ⟨agg, hagg⟩ := topAgg_ok_of_parseable l h
    simp [hagg, Except.isOk, Except.toBool]
  | status => simp [hne, Except.isOk, Except.toBool]
  | count => simp [hcust, Except.isOk, Except.toBool]
  | general => simp [hne, Except.isOk, Except.toBool]

/-- C5 (counterexample): the amount string `1.2.3` passes the
dots-removed-digits filter yet `float` rejects it, so instead of contributing
zero it makes the whole analysis fail with a conversion error — refuting the
claim that malformed amounts never cause the analysis to fail. -/
theorem c5_counterexample :
    amountFilter "1.2.3" = true ∧
    analyze_with_transformers true true "total revenue"
      [⟨"1", "A", "1.2.3", "2024-01-01", "Paid"⟩] = .error (.valueError "1.2.3") :=
  ⟨by decide, by decide⟩

/-- The spec scenario record list with a malformed amount `abc`. -/
def lAbc : List InvoiceData :=
  [⟨"1", "A", "abc", "2024-01-01", "Paid"⟩, ⟨"2", "B", "50", "2024-01-02", "Partially Paid"⟩]

/-- Witness for C5 at the spec scenario: a record with amount `abc` is counted
but contributes zero, and the analysis succeeds. -/
theorem c5_malformed_amounts_witness :
    (∀ inv ∈ lAbc, amountFilter inv.amount = true → (pyFloat inv.amount).isSome = true) ∧
    sumAmounts lAbc = .ok (lAbc.foldr (fun inv acc => (contribOf inv).add acc) (PyRat.ofNat 0)) ∧
    (analyze_with_transformers true true "total revenue" lAbc).isOk = true :=
  have hh : ∀ inv ∈ lAbc, amountFilter inv.amount = true → (pyFloat inv.amount).isSome = true :=
    by decide
  ⟨hh, (c5_malformed_amounts lAbc hh).1,
   (c5_malformed_amounts lAbc hh).2 "total revenue" (by decide)⟩

/-- The two-record dataset of the spec scenarios. -/
def sampleInvs : List InvoiceData :=
  [⟨"1", "A", "100", "2024-01-01", "Paid"⟩, ⟨"2", "B", "50", "2024-01-02", "Partially Paid"⟩]

/-- C6: the analyzer classifies queries by case-insensitive substring matching
against the four keyword sets in fixed priority order — revenue keywords
first, then customer, status, and count, the first match winning, otherwise
the general overview — and on the concrete queries of the spec each selects
the stated branch, including end to end through the analyzer on the sample
dataset. -/
theorem c6_query_classification :
    (∀ q, containsAnyWord (pyLower q) ["total", "revenue", "amount", "sum"] = true →
       queryKindOf q = .revenue) ∧
    (∀ q, containsAnyWord (pyLower q) ["total", "revenue", "amount", "sum"] = false →
       containsAnyWord (pyLower q) ["customer", "client", "who"] = true →
       queryKindOf q = .customer) ∧
    (∀ q, containsAnyWord (pyLower q) ["total", "revenue", "amount", "sum"] = false →
       containsAnyWord (pyLower q) ["customer", "client", "who"] = false →
       containsAnyWord (pyLower q) ["status", "paid", "payment"] = true →
       queryKindOf q = .status) ∧
    (∀ q, containsAnyWord (pyLower q) ["total", "revenue", "amount", "sum"] = false →
       containsAnyWord (pyLower q) ["customer", "client", "who"] = false →
       containsAnyWord (pyLower q) ["status", "paid", "payment"] = false →
       containsAnyWord (pyLower q) ["count", "how many", "number"] = true →
       queryKindOf q = .count) ∧
    (∀ q, containsAnyWord (pyLower q) ["total", "revenue", "amount", "sum"] = false →
       containsAnyWord (pyLower q) ["customer", "client", "who"] = false →
       containsAnyWord (pyLower q) ["status", "paid", "payment"] = false →
       containsAnyWord (pyLower q) ["count", "how many", "number"] = false →
       queryKindOf q = .general) ∧
    queryKindOf "What is the total revenue?" = .revenue ∧
    queryKindOf "Who are my customers?" = .customer ∧
    queryKindOf "Show payment status" = .status ∧
    queryKindOf "hello" = .general ∧
    analyze_with_transformers true true "What is the total revenue?" sampleInvs =
      .ok "Total Revenue Analysis:\n- Total invoices: 2\n- Total amount: $150.00\n- Paid invoices: 1\n- Partially paid: 1\n- Average per invoice: $75.00" ∧
    analyze_with_transformers true true "Who are my customers?" sampleInvs =
      .ok "Customer Analysis:\n- Total customers: 2\n- Top customers by revenue:\n  • A: $100.00\n  • B: $50.00\n" ∧
    analyze_with_transformers true true "Show payment status" sampleInvs =
      .ok "Payment Status Analysis:\n- Fully paid: 1 invoices\n- Partially paid: 1 invoices\n- Payment rate: 100.0%\n- Total collected: $150.00" ∧
    analyze_with_transformers true true "hello" sampleInvs =
      .ok "Invoice Overview:\n- Total invoices: 2\n- Total revenue: $150.00\n- Customers: 2\n- Paid: 1, Partial: 1\n- Average invoice: $75.00\n\n📊 This analysis uses free local AI (sentence-transformers)" := by
  refine ⟨?_, ?_, ?_, ?_, ?_, by decide, by decide, by decide, by decide,
    by decide, by decide, by decide, by decide⟩
  · intro q h1
    simp [queryKindOf, h1]
  · intro q h1 h2
    simp [queryKindOf, h1, h2]
  · intro q h1 h2 h3
    simp [queryKindOf, h1, h2, h3]
  · intro q h1 h2 h3 h4
    simp [queryKindOf, h1, h2, h3, h4]
  · intro q h1 h2 h3 h4
    simp [queryKindOf, h1, h2, h3, h4]

/-- Witness for C6 at the status-query example. -/
theorem c6_query_classification_witness :
    (containsAnyWord (pyLower "Show payment status") ["total", "revenue", "amount", "sum"] = false) ∧
    (containsAnyWord (pyLower "Show payment status") ["customer", "client", "who"] = false) ∧
    (containsAnyWord (pyLower "Show payment status") ["status", "paid", "payment"] = true) ∧
    queryKindOf "Show payment status" = .status :=
  ⟨by decide, by decide, by decide,
   c6_query_classification.2.2.1 "Show payment status" (by decide) (by decide) (by decide)⟩
